import Mathlib

/-!
Verification of the parsing and wrapper layer of the `pymatgen` topology
modules, namely `pymatgen/command_line/vasp2trace_caller.py`
(`Vasp2TraceCaller`, `Vasp2TraceOutput`) and
`pymatgen/analysis/topology/analyzer.py` (`BandTopologyAnalyzer`,
`BandTopologyAnalyzerOutput`).

The Python code is embedded shallowly:

* Python strings are Lean `String`s; tokenisation is carried out over
  `List Char` with structural recursion so that all definitions evaluate.
* Python `int(...)`, `float(...)`, `str.split`, `str.strip`, list slicing
  and list indexing are modelled faithfully, including negative-index and
  clamping behaviour of slices and the distinction between splitting on a
  single space character and splitting on whitespace runs.
* `numpy.loadtxt` is modelled including its comment/blank-line handling and
  its dimension squeezing (one row gives a 1-d array, one column gives a
  1-d array, a single value gives a 0-d array, empty input gives an empty
  1-d array).  Iteration over an array (`enumerate`) walks the first axis
  and fails on a 0-d array.
* Exceptions are the `Except PyErr` monad; a raised exception aborts the
  constructor, so no partially constructed object is observable.
* Floating point literals are kept symbolically as mantissa/exponent pairs
  (`FloatTok`); no claim under study compares numeric values of distinct
  literals, only shapes, keys and equality of identically written tokens.
* Process spawning, `os.chdir` and `warnings.warn` are modelled by explicit
  state passing plus an effect trace (`OsEffect`).
-/

deriving instance DecidableEq for Except

/-- Python exception values, as far as this code distinguishes them. -/
inductive PyErr where
  | indexError : PyErr
  | valueError : String → PyErr
  | typeError : String → PyErr
  | keyError : String → PyErr
  | fileNotFoundError : PyErr
  | runtimeError : String → PyErr
deriving DecidableEq

/-! ## Python string primitives -/

/-- Python whitespace characters, as used by `str.split()` and `int`/`float`
argument stripping. -/
def pyIsSpace (c : Char) : Bool :=
  c = ' ' || c = '\t' || c = '\n' || c = '\r' || c = '\x0b' || c = '\x0c'

/-- Split a character list at every separator character, keeping empty
fragments: the semantics of Python `str.split(sep)` for a one-character
separator. -/
def splitOnChar (p : Char → Bool) : List Char → List (List Char)
  | [] => [[]]
  | c :: cs =>
    if p c then [] :: splitOnChar p cs
    else
      match splitOnChar p cs with
      | [] => [[c]]
      | t :: ts => (c :: t) :: ts

/-- Python `line.split(" ")` followed by discarding empty fragments, i.e. the
list comprehension `[i for i in line.split(" ") if i]` from
`Vasp2TraceOutput._parse_stdout`.  The trailing newline of a line is part of
its last fragment. -/
def fragsOf (l : String) : List (List Char) :=
  (splitOnChar (fun c => c = ' ') l.toList).filter (fun t => t ≠ [])

/-- Python `s.split()` (no separator): split on whitespace runs, no empty
fragments. -/
def pySplitWs (l : String) : List (List Char) :=
  (splitOnChar pyIsSpace l.toList).filter (fun t => t ≠ [])

/-- Python `s.strip(chars)` on a character list: remove the given characters
from both ends. -/
def pyStripChars (p : Char → Bool) (cs : List Char) : List Char :=
  ((cs.dropWhile p).reverse.dropWhile p).reverse

/-- Python `s.strip("\n")`. -/
def stripNl (cs : List Char) : List Char :=
  pyStripChars (fun c => c = '\n') cs

/-! ## Python numeric conversions -/

/-- The numeric value of a nonempty digit string; `none` on an empty list or
any non-digit. -/
def digitsToNat (cs : List Char) : Option Nat :=
  match cs with
  | [] => none
  | _ =>
    cs.foldl
      (fun acc c =>
        match acc with
        | none => none
        | some n => if c.isDigit then some (n * 10 + (c.toNat - 48)) else none)
      (some 0)

/-- Python `int(s)`: strip surrounding whitespace, allow one sign, then
require a nonempty digit string. -/
def pyIntCore (s : String) : Option Int :=
  match pyStripChars pyIsSpace s.toList with
  | '-' :: ds => (digitsToNat ds).map (fun n => -(n : Int))
  | '+' :: ds => (digitsToNat ds).map (fun n => (n : Int))
  | ds => (digitsToNat ds).map (fun n => (n : Int))

/-- Python `int(s)` as an exception-raising conversion (`ValueError` on
failure). -/
def pyInt (s : String) : Except PyErr Int :=
  match pyIntCore s with
  | some n => .ok n
  | none => .error (.valueError s)

/-- A floating point literal kept symbolically: the written token
`[sign]ddd[.ddd][e[sign]ddd]` is stored as mantissa `man` and power-of-ten
exponent `exp`, denoting `man * 10 ^ exp`.  Identically written tokens give
identical values, which is the only property of floats this development
relies on. -/
structure FloatTok where
  man : Int
  exp : Int
deriving DecidableEq

/-- Parse the exponent suffix of a float literal (empty, or `e`/`E` followed
by an optionally signed digit string). -/
def floatExpPart (cs : List Char) : Option Int :=
  match cs with
  | [] => some 0
  | 'e' :: rest =>
    match rest with
    | '-' :: ds => (digitsToNat ds).map (fun n => -(n : Int))
    | '+' :: ds => (digitsToNat ds).map (fun n => (n : Int))
    | ds => (digitsToNat ds).map (fun n => (n : Int))
  | 'E' :: rest =>
    match rest with
    | '-' :: ds => (digitsToNat ds).map (fun n => -(n : Int))
    | '+' :: ds => (digitsToNat ds).map (fun n => (n : Int))
    | ds => (digitsToNat ds).map (fun n => (n : Int))
  | _ => none

/-- Parse an unsigned float literal `ddd[.ddd][exponent]`. -/
def floatMagnitude (cs : List Char) : Option FloatTok :=
  let ip := cs.takeWhile Char.isDigit
  let r1 := cs.dropWhile Char.isDigit
  let fpRest :=
    match r1 with
    | '.' :: r2 => (r2.takeWhile Char.isDigit, r2.dropWhile Char.isDigit)
    | _ => ([], r1)
  let fp := fpRest.1
  match ip ++ fp, floatExpPart fpRest.2 with
  | [], _ => none
  | _, none => none
  | ds, some e =>
    match digitsToNat ds with
    | none => none
    | some m => some { man := (m : Int), exp := e - (fp.length : Int) }

/-- Python/numpy float conversion of a single whitespace-free token. -/
def pyFloatCore (s : List Char) : Option FloatTok :=
  match s with
  | '-' :: rest => (floatMagnitude rest).map (fun f => { f with man := -f.man })
  | '+' :: rest => floatMagnitude rest
  | rest => floatMagnitude rest

/-! ## Python sequence indexing and slicing -/

/-- Normalise a Python slice endpoint against a length `n`: negative values
count from the end, everything is clamped into `[0, n]`. -/
def pySliceNorm (n : Nat) (i : Int) : Nat :=
  if i < 0 then ((n : Int) + i).toNat else min i.toNat n

/-- Python `l[i:j]`. -/
def pySlice (l : List α) (i j : Int) : List α :=
  let a := pySliceNorm l.length i
  let b := pySliceNorm l.length j
  (l.drop a).take (b - a)

/-- Python `l[i:]`. -/
def pySliceFrom (l : List α) (i : Int) : List α :=
  l.drop (pySliceNorm l.length i)

/-- Python `l[i]`: negative indices count from the end, out-of-range raises
`IndexError`. -/
def pyGet (l : List α) (i : Int) : Except PyErr α :=
  let n := l.length
  let j := if i < 0 then (n : Int) + i else i
  if 0 ≤ j ∧ j < (n : Int) then
    match l.get? j.toNat with
    | some x => .ok x
    | none => .error .indexError
  else .error .indexError

/-! ## Exception-monad list traversals (Python comprehensions evaluate left
to right and abort at the first raised exception) -/

/-- Left-to-right effectful map in the exception monad. -/
def mapEx (f : α → Except PyErr β) : List α → Except PyErr (List β)
  | [] => .ok []
  | a :: as => do
    let b ← f a
    let bs ← mapEx f as
    .ok (b :: bs)

/-- Left-to-right map in the option monad (used for numpy conversions). -/
def mapOpt (f : α → Option β) : List α → Option (List β)
  | [] => some []
  | a :: as =>
    match f a, mapOpt f as with
    | some b, some bs => some (b :: bs)
    | _, _ => none

/-! ## numpy.loadtxt -/

/-- A numpy array as returned by `np.loadtxt`: 0-d, 1-d or 2-d. -/
inductive NpArray where
  | scalar : FloatTok → NpArray
  | vec : List FloatTok → NpArray
  | mat : List (List FloatTok) → NpArray
deriving DecidableEq

/-- The tokens `np.loadtxt` reads from one line: everything before a `#`
comment marker, split on whitespace. -/
def npCleanTokens (l : String) : List (List Char) :=
  (splitOnChar pyIsSpace (l.toList.takeWhile (fun c => c ≠ '#'))).filter
    (fun t => t ≠ [])

/-- `np.loadtxt` on a list of text lines: skip blank/comment lines, convert
every token to a float (`ValueError` on failure), require a rectangular
table (`ValueError` otherwise), then squeeze trailing singleton dimensions
exactly as numpy does: no rows gives an empty 1-d array, a single value a
0-d array, a single row or a single column a 1-d array. -/
def np_loadtxt (ls : List String) : Except PyErr NpArray :=
  let toklists := (ls.map npCleanTokens).filter (fun ts => ts ≠ [])
  match mapOpt (fun ts => mapOpt pyFloatCore ts) toklists with
  | none => .error (.valueError "could not convert string to float")
  | some rows =>
    match rows with
    | [] => .ok (.vec [])
    | [r] =>
      match r with
      | [x] => .ok (.scalar x)
      | _ => .ok (.vec r)
    | r :: rest =>
      if rest.all (fun q => q.length = r.length) then
        if r.length = 1 then .ok (.vec ((r :: rest).map (fun q => q.headD { man := 0, exp := 0 })))
        else .ok (.mat (r :: rest))
      else .error (.valueError "wrong number of columns")

/-- Python iteration over a numpy array (`enumerate(arr)` walks the first
axis); iterating over a 0-d array raises `TypeError`. -/
def npEnum : NpArray → Except PyErr (List NpArray)
  | .scalar _ => .error (.typeError "iteration over a 0-d array")
  | .vec xs => .ok (xs.map NpArray.scalar)
  | .mat rs => .ok (rs.map NpArray.vec)

/-! ## Vasp2TraceOutput._parse_stdout -/

/-- The scan
`for jdx, line in enumerate(lines[trace_start - 1:], trace_start - 1)`
recording the (absolute) indices of lines whose space-split nonempty
fragment list has exactly one element. -/
def singles : List String → Int → List Int
  | [], _ => []
  | l :: ls, j =>
    if (fragsOf l).length = 1 then j :: singles ls (j + 1)
    else singles ls (j + 1)

/-- The `block_starts` list of `Vasp2TraceOutput._parse_stdout`: indices of
single-fragment lines, scanning from line `start` on. -/
def blockStarts (lines : List String) (start : Int) : List Int :=
  singles (pySliceFrom lines start) start

/-- The `[int(i.strip("\n")) for i in lines[start_block + 1].split(" ") if i.strip("\n")]`
token list of a little-cogroup index line. -/
def soilcgToks (l : String) : List (List Char) :=
  ((splitOnChar (fun c => c = ' ') l.toList).map stripNl).filter (fun t => t ≠ [])

/-- `int` applied to an already stripped token (list-of-characters form). -/
def pyIntTok (cs : List Char) : Except PyErr Int :=
  match pyIntCore (String.mk cs) with
  | some n => .ok n
  | none => .error (.valueError (String.mk cs))

/-- The parsed fields of `Vasp2TraceOutput` (everything
`_parse_stdout` assigns, besides the stdout path itself).  The three
per-k-vector dictionaries are association lists in insertion order with the
k-vector index as key. -/
structure V2TParsed where
  num_occ_bands : Int
  soc : Int
  num_symm_ops : Int
  symm_ops : NpArray
  num_max_kvec : Int
  kvecs : NpArray
  num_kvec_symm_ops : List (Nat × Int)
  symm_ops_in_little_cogroup : List (Nat × List Int)
  traces : List (Nat × NpArray)
deriving DecidableEq

/-- The `for idx, kpt in enumerate(kvecs)` loop of `_parse_stdout`,
populating the three dictionaries.  `kl` is the iterator over the first axis
of `kvecs`; `idx` is the running index. -/
def parseLoop (lines : List String) (block_starts : List Int)
    (num_max_kvec : Int) :
    List NpArray → Nat →
    List (Nat × Int) → List (Nat × List Int) → List (Nat × NpArray) →
    Except PyErr (List (Nat × Int) × List (Nat × List Int) × List (Nat × NpArray))
  | [], _, d1, d2, d3 => .ok (d1, d2, d3)
  | _ :: rest, idx, d1, d2, d3 => do
    let start_block ← pyGet block_starts (idx : Int)
    let trace_str ←
      if (idx : Int) < num_max_kvec - 1 then do
        let next_block ← pyGet block_starts ((idx : Int) + 1)
        pure (pySlice lines (start_block + 2) next_block)
      else
        pure (pySliceFrom lines (start_block + 2))
    let countLine ← pyGet lines start_block
    let n ← pyInt countLine
    let indexLine ← pyGet lines (start_block + 1)
    let soilcg ← mapEx pyIntTok (soilcgToks indexLine)
    let trace ← np_loadtxt trace_str
    parseLoop lines block_starts num_max_kvec rest (idx + 1)
      (d1 ++ [(idx, n)]) (d2 ++ [(idx, soilcg)]) (d3 ++ [(idx, trace)])

/-- The tail of `_parse_stdout` after the header has been read: compute
`trace_start` and `block_starts`, then loop over the k-vectors. -/
def parseAfterHeader (lines : List String) (num_occ_bands soc num_symm_ops : Int)
    (symm_ops : NpArray) (num_max_kvec : Int) (kvecs : NpArray) :
    Except PyErr V2TParsed := do
  let trace_start : Int := 5 + num_max_kvec + num_symm_ops
  let block_starts := blockStarts lines (trace_start - 1)
  let kl ← npEnum kvecs
  let (d1, d2, d3) ← parseLoop lines block_starts num_max_kvec kl 0 [] [] []
  .ok { num_occ_bands := num_occ_bands, soc := soc,
        num_symm_ops := num_symm_ops, symm_ops := symm_ops,
        num_max_kvec := num_max_kvec, kvecs := kvecs,
        num_kvec_symm_ops := d1, symm_ops_in_little_cogroup := d2,
        traces := d3 }

/-- `Vasp2TraceOutput._parse_stdout` on the list of lines read from the
trace file: read the header counts, load the symmetry-operation and
k-vector tables, then parse the per-k-vector blocks. -/
def parse_stdout (lines : List String) : Except PyErr V2TParsed := do
  let l0 ← pyGet lines 0
  let num_occ_bands ← pyInt l0
  let l1 ← pyGet lines 1
  let soc ← pyInt l1
  let l2 ← pyGet lines 2
  let num_symm_ops ← pyInt l2
  let symm_ops ← np_loadtxt (pySlice lines 3 (3 + num_symm_ops))
  let l3 ← pyGet lines (3 + num_symm_ops)
  let num_max_kvec ← pyInt l3
  let kvecs ← np_loadtxt
    (pySlice lines (4 + num_symm_ops) (4 + num_symm_ops + num_max_kvec))
  parseAfterHeader lines num_occ_bands soc num_symm_ops symm_ops
    num_max_kvec kvecs

/-- The full `Vasp2TraceOutput` object: the constructor stores the stdout
path and then calls `_parse_stdout`, which opens that path.  The file system
is an explicit map from paths to line lists (`readlines` keeps the trailing
newline of each line, which concrete instantiations below reflect). -/
structure Vasp2TraceOutput where
  vasp2trace_stdout : String
  parsed : V2TParsed
deriving DecidableEq

/-- `Vasp2TraceOutput.__init__`: open and parse the file; any exception
propagates, so no object is produced on failure.  The optional field
arguments of the Python signature are ignored here because `_parse_stdout`
unconditionally overwrites all of them on success. -/
def vasp2trace_output_init (fs : String → Option (List String)) (p : String) :
    Except PyErr Vasp2TraceOutput :=
  match fs p with
  | none => .error .fileNotFoundError
  | some lines => do
    let o ← parse_stdout lines
    .ok { vasp2trace_stdout := p, parsed := o }

/-! ## Well-formed trace files

A well-formed trace file, following the file format of the specification:
three header count lines, `S` symmetry-operation rows, a k-vector count
line, `K` k-vector rows, then `K` blocks of a single-fragment count line, an
operation-index line and a numeric trace table.  Well-formedness constrains
each line through the same tokenisers the parser uses: count lines carry
exactly one fragment and parse as integers, index lines carry exactly the
declared number of integer tokens and do not look like block starts, table
rows are rectangular float rows of width at least two and do not look like
block starts. -/

/-- One k-vector block of a trace file. -/
structure V2TBlock where
  countLine : String
  indexLine : String
  traceLines : List String
deriving DecidableEq

/-- The lines of a block. -/
def blockLines (b : V2TBlock) : List String :=
  b.countLine :: b.indexLine :: b.traceLines

/-- A trace file, described structurally. -/
structure V2TFile where
  bandLine : String
  socLine : String
  symmCountLine : String
  symmLines : List String
  kvecCountLine : String
  kvecLines : List String
  blocks : List V2TBlock
deriving DecidableEq

/-- The text of a trace file: header, symmetry rows, k-vector count,
k-vectors, then the blocks, with nothing after the last block (the file ends
at end-of-file, not at a further boundary line). -/
def assemble (D : V2TFile) : List String :=
  D.bandLine :: D.socLine :: D.symmCountLine ::
    (D.symmLines ++ D.kvecCountLine ::
      (D.kvecLines ++ (D.blocks.map blockLines).flatten))

/-- A numeric table row of width `w`: all tokens parse as floats. -/
def rowWidth (l : String) : Option Nat :=
  match mapOpt pyFloatCore (npCleanTokens l) with
  | some r => if r = [] then none else some r.length
  | none => none

/-- Well-formedness of one block. -/
def wfBlock (b : V2TBlock) : Bool :=
  ((fragsOf b.countLine).length = 1) &&
  (match pyIntCore b.countLine with
   | some n =>
     ((soilcgToks b.indexLine).all (fun t => (pyIntCore (String.mk t)).isSome)) &&
     (n = ((soilcgToks b.indexLine).length : Int))
   | none => false) &&
  ((fragsOf b.indexLine).length ≠ 1) &&
  (match b.traceLines with
   | [] => true
   | l :: _ =>
     match rowWidth l with
     | some w =>
       (2 ≤ w) &&
       b.traceLines.all (fun q => rowWidth q = some w && (fragsOf q).length ≠ 1)
     | none => false)

/-- Well-formedness of a header table (symmetry rows): rectangular float
rows of width at least 2. -/
def wfTable (ls : List String) : Bool :=
  match ls with
  | [] => true
  | l :: _ =>
    match rowWidth l with
    | some w => (2 ≤ w) && ls.all (fun q => rowWidth q = some w)
    | none => false

/-- Well-formedness of a whole trace file: header integers parse and agree
with the actual numbers of rows and blocks, k-vector rows have width 3, and
every block is well formed. -/
def wfFile (D : V2TFile) : Bool :=
  (pyIntCore D.bandLine).isSome &&
  (pyIntCore D.socLine).isSome &&
  (pyIntCore D.symmCountLine = some (D.symmLines.length : Int)) &&
  wfTable D.symmLines &&
  (pyIntCore D.kvecCountLine = some (D.kvecLines.length : Int)) &&
  D.kvecLines.all (fun l => rowWidth l = some 3) &&
  (D.blocks.length = D.kvecLines.length) &&
  D.blocks.all wfBlock

/-! ## MSONable serialization of Vasp2TraceOutput

`Vasp2TraceOutput` inherits monty's `MSONable`: `as_dict` collects the
values of the constructor arguments (falling back to the underscore-prefixed
attribute for `vasp2trace_stdout`), `from_dict` calls the constructor with
the stored values — and the constructor re-runs `_parse_stdout` on the
stored stdout path, overwriting every parsed field. -/

/-- Dynamic values of the generic map-like representation (one constructor
per value shape occurring among the constructor arguments). -/
inductive MVal where
  | mint : Int → MVal
  | mstr : String → MVal
  | marr : NpArray → MVal
  | mdictInt : List (Nat × Int) → MVal
  | mdictIntList : List (Nat × List Int) → MVal
  | mdictArr : List (Nat × NpArray) → MVal
deriving DecidableEq

/-- Lookup in a string-keyed dictionary (Python `d[k]`, raising
`KeyError`). -/
def mdictGet (d : List (String × MVal)) (k : String) : Except PyErr MVal :=
  match d.find? (fun p => p.1 = k) with
  | some p => .ok p.2
  | none => .error (.keyError k)

/-- `Vasp2TraceOutput.as_dict()`: the module/class tags and one entry per
constructor argument. -/
def v2t_as_dict (o : Vasp2TraceOutput) : List (String × MVal) :=
  [("@module", .mstr "pymatgen.command_line.vasp2trace_caller"),
   ("@class", .mstr "Vasp2TraceOutput"),
   ("vasp2trace_stdout", .mstr o.vasp2trace_stdout),
   ("num_occ_bands", .mint o.parsed.num_occ_bands),
   ("soc", .mint o.parsed.soc),
   ("num_symm_ops", .mint o.parsed.num_symm_ops),
   ("symm_ops", .marr o.parsed.symm_ops),
   ("num_max_kvec", .mint o.parsed.num_max_kvec),
   ("kvecs", .marr o.parsed.kvecs),
   ("num_kvec_symm_ops", .mdictInt o.parsed.num_kvec_symm_ops),
   ("symm_ops_in_little_cogroup",
      .mdictIntList o.parsed.symm_ops_in_little_cogroup),
   ("traces", .mdictArr o.parsed.traces)]

/-- `Vasp2TraceOutput.from_dict(d)`: call the constructor on the stored
arguments.  The constructor re-parses the stored stdout path and overwrites
every other argument, so only the path influences the result. -/
def v2t_from_dict (fs : String → Option (List String))
    (d : List (String × MVal)) : Except PyErr Vasp2TraceOutput :=
  match mdictGet d "vasp2trace_stdout" with
  | .ok (.mstr p) => vasp2trace_output_init fs p
  | .ok _ => .error (.typeError "expected a string stdout path")
  | .error e => .error e

/-! ## BandTopologyAnalyzerOutput (analyzer.py)

The analyzer delegates everything numeric to the external z2pack library.
Externals are therefore parameters: the Chern extraction, the Z2
extraction, and the semantics of calling a value with two arguments (used
for `surface("t1", "t2")`).  Values of the dynamic Python world are `ZVal`;
opaque objects (convergence results, output objects) are identified by a
tag. -/

/-- Dynamic values of the analyzer embedding. -/
inductive ZVal where
  | zstr : String → ZVal
  | zint : Int → ZVal
  | zdec : FloatTok → ZVal
  | zbool : Bool → ZVal
  | zrange : Int → Int → Int → ZVal
  | zobj : Nat → ZVal
deriving DecidableEq

/-- The external z2pack functions the analyzer calls. -/
structure Z2Ext where
  chern : ZVal → Except PyErr ZVal
  z2 : ZVal → Except PyErr ZVal
  call2 : ZVal → ZVal → ZVal → Except PyErr ZVal

/-- The fields of `BandTopologyAnalyzerOutput` after construction. -/
structure BandTopologyAnalyzerOutput where
  result : ZVal
  surface : ZVal
  chern_number : ZVal
  z2_invariant : ZVal
deriving DecidableEq

/-- The body of `BandTopologyAnalyzerOutput._parse_result(self, result,
surface)`: apply the Chern and Z2 extractions to `result` and call
`surface` at the symbolic parameter names, in source order. -/
def bta_parse_result (ext : Z2Ext) (result surface : ZVal) :
    Except PyErr (ZVal × ZVal × ZVal) := do
  let c ← ext.chern result
  let z ← ext.z2 result
  let sv ← ext.call2 surface (.zstr "t1") (.zstr "t2")
  .ok (c, z, sv)

/-- `BandTopologyAnalyzerOutput.__init__(self, result, surface, ...)`.  The
source calls `self._parse_result(self, result)`: through the bound method
the parameter named `result` receives the object under construction
(`selfObj`) and the parameter named `surface` receives the convergence
result.  The stored fields come from that shifted call. -/
def bta_output_init (ext : Z2Ext) (selfObj result surface : ZVal) :
    Except PyErr BandTopologyAnalyzerOutput := do
  let (c, z, sv) ← bta_parse_result ext selfObj result
  .ok { result := result, surface := sv, chern_number := c, z2_invariant := z }

/-- Modelled from the spec: the construction C1 describes — the two
extraction functions applied to the opaque convergence result and the
surface function evaluated at the parameter names `t1` and `t2`.  Kept
separate from `bta_output_init` (the code) for comparison. -/
def bta_output_claimed (ext : Z2Ext) (result surface : ZVal) :
    Except PyErr BandTopologyAnalyzerOutput := do
  let (c, z, sv) ← bta_parse_result ext result surface
  .ok { result := result, surface := sv, chern_number := c, z2_invariant := z }

/-- `BandTopologyAnalyzerOutput.as_dict()` (monty `MSONable`): module/class
tags plus one entry per constructor argument, reading `_result` for
`result`. -/
def bta_as_dict (o : BandTopologyAnalyzerOutput) : List (String × ZVal) :=
  [("@module", .zstr "pymatgen.analysis.topology.analyzer"),
   ("@class", .zstr "BandTopologyAnalyzerOutput"),
   ("result", o.result),
   ("surface", o.surface),
   ("chern_number", o.chern_number),
   ("z2_invariant", o.z2_invariant)]

/-- Lookup in a string-keyed `ZVal` dictionary. -/
def zdictGet (d : List (String × ZVal)) (k : String) : Except PyErr ZVal :=
  match d.find? (fun p => p.1 = k) with
  | some p => .ok p.2
  | none => .error (.keyError k)

/-- `BandTopologyAnalyzerOutput.from_dict(d)`: call the constructor on the
stored arguments.  A fresh object (`selfObj`) is constructed, and the
constructor again routes it into `_parse_result`. -/
def bta_from_dict (ext : Z2Ext) (selfObj : ZVal) (d : List (String × ZVal)) :
    Except PyErr BandTopologyAnalyzerOutput := do
  let r ← zdictGet d "result"
  let s ← zdictGet d "surface"
  bta_output_init ext selfObj r s

/-! ## BandTopologyAnalyzer.run settings handling -/

/-- The `z2d` defaults dictionary of `BandTopologyAnalyzer.run`, in source
order.  `0.01` and `0.3` are kept as written (mantissa/exponent), `range(8,
27, 2)` as a range value. -/
def z2_defaults : List (String × ZVal) :=
  [("pos_tol", .zdec { man := 1, exp := -2 }),
   ("gap_tol", .zdec { man := 3, exp := -1 }),
   ("move_tol", .zdec { man := 3, exp := -1 }),
   ("num_lines", .zint 11),
   ("min_neighbour_dist", .zdec { man := 1, exp := -2 }),
   ("iterator", .zrange 8 27 2),
   ("load", .zbool true),
   ("save_file", .zstr "z2run.json")]

/-- Python `dict.update({k: v})`: replace the value of an existing key in
place, append a new key at the end. -/
def dictUpdate (d : List (String × ZVal)) (kv : String × ZVal) :
    List (String × ZVal) :=
  if (d.map Prod.fst).contains kv.1 then
    d.map (fun p => if p.1 = kv.1 then (p.1, kv.2) else p)
  else d ++ [kv]

/-- The `for k, v in z2_settings.items(): z2d.update({k: v})` loop. -/
def dictUpdateAll (d : List (String × ZVal)) (s : List (String × ZVal)) :
    List (String × ZVal) :=
  s.foldl dictUpdate d

/-- The keyword settings `BandTopologyAnalyzer.run` hands to
`z2pack.surface.run` (besides the `system` and `surface` objects): the seven
explicit keyword arguments of the call, looked up in the merged `z2d`
dictionary.  `z2_settings = none` models passing `None`; an empty dict is
falsy in Python and also leaves the defaults untouched. -/
def bta_run_kwargs (z2_settings : Option (List (String × ZVal))) :
    Except PyErr (List (String × ZVal)) := do
  let z2d :=
    match z2_settings with
    | some s => if s ≠ [] then dictUpdateAll z2_defaults s else z2_defaults
    | none => z2_defaults
  let pt ← zdictGet z2d "pos_tol"
  let gt ← zdictGet z2d "gap_tol"
  let mt ← zdictGet z2d "move_tol"
  let nl ← zdictGet z2d "num_lines"
  let mnd ← zdictGet z2d "min_neighbour_dist"
  let it ← zdictGet z2d "iterator"
  let sf ← zdictGet z2d "save_file"
  .ok [("pos_tol", pt), ("gap_tol", gt), ("move_tol", mt),
       ("num_lines", nl), ("min_neighbour_dist", mnd),
       ("iterator", it), ("save_file", sf)]

/-! ## Vasp2TraceCaller -/

/-- Result of the external `vasp2trace` subprocess. -/
structure ProcResult where
  stdout : String
  stderr : String
  returncode : Int
deriving DecidableEq

/-- Observable side effects of the caller constructor, in order. -/
inductive OsEffect where
  | chdir : String → OsEffect
  | spawn : String → OsEffect
  | warn : String → OsEffect
deriving DecidableEq

/-- Process-wide state: the current working directory. -/
structure CallerState where
  cwd : String
deriving DecidableEq

/-- The environment `Vasp2TraceCaller.__init__` runs in: which paths are
files, what the spawned subprocess produces, and what parsing the produced
stdout yields (the constructor ends with `Vasp2TraceOutput(stdout)`). -/
structure V2TEnv (α : Type) where
  isfile : String → Bool
  run_vasp2trace : ProcResult
  parse_output : String → Except PyErr α

/-- The attributes a successfully constructed `Vasp2TraceCaller` holds. -/
structure CallerOk (α : Type) where
  stdout : String
  stderr : String
  output : α
deriving DecidableEq

/-- `Vasp2TraceCaller.__init__(folder_name)`: check for `OUTCAR` and
`WAVECAR` under the folder (raising `FileNotFoundError` before anything
else happens), `os.chdir` into the folder, spawn `vasp2trace`, warn on
captured stderr, raise `RuntimeError` carrying a non-zero exit code, and
otherwise parse the captured stdout.  Returns the final process-wide state,
the ordered effect trace, and the outcome. -/
def vasp2trace_caller_init (env : V2TEnv α) (st : CallerState)
    (folder : String) :
    CallerState × List OsEffect × Except PyErr (CallerOk α) :=
  if !(env.isfile (folder ++ "/OUTCAR")) || !(env.isfile (folder ++ "/WAVECAR")) then
    (st, [], .error .fileNotFoundError)
  else
    let st1 : CallerState := { cwd := folder }
    let pr := env.run_vasp2trace
    let effs := [OsEffect.chdir folder, OsEffect.spawn "vasp2trace"] ++
      (if pr.stderr ≠ "" then [OsEffect.warn pr.stderr] else [])
    if pr.returncode ≠ 0 then
      (st1, effs,
        .error (.runtimeError
          ("vasp2trace exited with return code " ++ toString pr.returncode ++ ".")))
    else
      match env.parse_output pr.stdout with
      | .error e => (st1, effs, .error e)
      | .ok o => (st1, effs, .ok { stdout := pr.stdout, stderr := pr.stderr, output := o })

/-! ## Expected-value helpers for well-formed files -/

/-- The block start positions a well-formed file produces: one per block,
each `2 + (number of trace rows)` after the previous. -/
def startPositions : List V2TBlock → Int → List Int
  | [], _ => []
  | b :: bs, p => p :: startPositions bs (p + 2 + (b.traceLines.length : Int))

/-- The float row a table line denotes (total function; meaningful under
`rowWidth l = some w`). -/
def cleanRowVal (l : String) : List FloatTok :=
  (npCleanTokens l).map (fun t => (pyFloatCore t).getD { man := 0, exp := 0 })

/-- The array `np.loadtxt` returns on a rectangular table of width at least
two: empty, a single squeezed row, or a matrix. -/
def npLoadVal (ls : List String) : NpArray :=
  match ls.map cleanRowVal with
  | [] => .vec []
  | [r] => .vec r
  | rs => .mat rs

/-- The little-cogroup count a well-formed block declares (equal to the
number of index tokens). -/
def countOf (b : V2TBlock) : Int :=
  ((soilcgToks b.indexLine).length : Int)

/-- The operation indices of a well-formed block. -/
def soilcgVals (b : V2TBlock) : List Int :=
  (soilcgToks b.indexLine).map (fun t => (pyIntCore (String.mk t)).getD 0)

/-- Expected `num_kvec_symm_ops` entries from block `i` on. -/
def blkCounts : List V2TBlock → Nat → List (Nat × Int)
  | [], _ => []
  | b :: bs, i => (i, countOf b) :: blkCounts bs (i + 1)

/-- Expected `symm_ops_in_little_cogroup` entries from block `i` on. -/
def blkSoilcg : List V2TBlock → Nat → List (Nat × List Int)
  | [], _ => []
  | b :: bs, i => (i, soilcgVals b) :: blkSoilcg bs (i + 1)

/-- Expected `traces` entries from block `i` on. -/
def blkTraces : List V2TBlock → Nat → List (Nat × NpArray)
  | [], _ => []
  | b :: bs, i => (i, npLoadVal b.traceLines) :: blkTraces bs (i + 1)

/-- Dictionary lookup with a k-vector index key. -/
def dictFind (d : List (Nat × α)) (k : Nat) : Option α :=
  (d.find? (fun p => p.1 = k)).map Prod.snd

/-! ## Concrete instances -/

/-- Concrete externals for evaluating the analyzer embedding: each external
records which opaque object it was applied to (Chern extraction maps object
`n` to object `1000 + n`, Z2 to `2000 + n`, calling object `n` with two
arguments to `3000 + n`). -/
def ext0 : Z2Ext :=
  { chern := fun v =>
      match v with
      | .zobj n => .ok (.zobj (1000 + n))
      | _ => .error (.typeError "chern"),
    z2 := fun v =>
      match v with
      | .zobj n => .ok (.zobj (2000 + n))
      | _ => .error (.typeError "z2"),
    call2 := fun f _ _ =>
      match f with
      | .zobj n => .ok (.zobj (3000 + n))
      | _ => .error (.typeError "not callable") }

/-- The value a settings mapping assigns to a key, later entries overriding
earlier ones, with a default fallback. -/
def settingOr (s : List (String × ZVal)) (k : String) (d : ZVal) : ZVal :=
  match s.reverse.find? (fun p => p.1 = k) with
  | some p => p.2
  | none => d

/-- A well-formed two-k-vector trace file (3 occupied bands, no spin-orbit,
2 symmetry operations, 2 maximal k-vectors; the second block's trace table
runs to end of file with no boundary line after it). -/
def file2 : V2TFile :=
  { bandLine := "3\n", socLine := "0\n", symmCountLine := "2\n",
    symmLines := ["1 0 0\n", "0 1 0\n"],
    kvecCountLine := "2\n",
    kvecLines := ["0 0 0\n", "0.5 0 0\n"],
    blocks :=
      [{ countLine := "2\n", indexLine := "1 2\n",
         traceLines := ["1 2 -3.5 1 0\n", "2 1 4 0 1\n"] },
       { countLine := "2\n", indexLine := "1 2\n",
         traceLines := ["1 2 5 1 0\n"] }] }

/-- A well-formed trace file declaring a single maximal k-vector. -/
def file1 : V2TFile :=
  { bandLine := "7\n", socLine := "1\n", symmCountLine := "2\n",
    symmLines := ["1 0 0\n", "0 1 0\n"],
    kvecCountLine := "1\n",
    kvecLines := ["0 0 0\n"],
    blocks :=
      [{ countLine := "2\n", indexLine := "1 2\n",
         traceLines := ["1 1 5 1 0\n"] }] }

/-- A malformed trace file: the header declares 0 maximal k-vectors, yet a
k-vector block follows. -/
def lines9 : List String :=
  ["5\n", "0\n", "2\n", "1 0 0\n", "0 1 0\n", "0\n",
   "2\n", "1 2\n", "1 1 5 1 0\n"]

/-- A one-file file system holding the text of `file2` under
`trace.txt`. -/
def fs2 : String → Option (List String) :=
  fun p => if p = "trace.txt" then some (assemble file2) else none

/-- An environment whose directory holds neither prerequisite file. -/
def env7 : V2TEnv Unit :=
  { isfile := fun _ => false,
    run_vasp2trace := { stdout := "", stderr := "", returncode := 0 },
    parse_output := fun _ => .ok () }

/-- An environment with both prerequisite files whose subprocess fails with
exit code 3 after writing diagnostics to stderr. -/
def env8 : V2TEnv Unit :=
  { isfile := fun _ => true,
    run_vasp2trace := { stdout := "out", stderr := "bad news", returncode := 3 },
    parse_output := fun _ => .ok () }

/-- The parse result of `file2`. -/
def parsed2 : V2TParsed :=
  { num_occ_bands := 3, soc := 0, num_symm_ops := 2,
    symm_ops := .mat
      [[{ man := 1, exp := 0 }, { man := 0, exp := 0 }, { man := 0, exp := 0 }],
       [{ man := 0, exp := 0 }, { man := 1, exp := 0 }, { man := 0, exp := 0 }]],
    num_max_kvec := 2,
    kvecs := .mat
      [[{ man := 0, exp := 0 }, { man := 0, exp := 0 }, { man := 0, exp := 0 }],
       [{ man := 5, exp := -1 }, { man := 0, exp := 0 }, { man := 0, exp := 0 }]],
    num_kvec_symm_ops := [(0, 2), (1, 2)],
    symm_ops_in_little_cogroup := [(0, [1, 2]), (1, [1, 2])],
    traces :=
      [(0, .mat
          [[{ man := 1, exp := 0 }, { man := 2, exp := 0 },
            { man := -35, exp := -1 }, { man := 1, exp := 0 },
            { man := 0, exp := 0 }],
           [{ man := 2, exp := 0 }, { man := 1, exp := 0 },
            { man := 4, exp := 0 }, { man := 0, exp := 0 },
            { man := 1, exp := 0 }]]),
       (1, .vec
          [{ man := 1, exp := 0 }, { man := 2, exp := 0 },
           { man := 5, exp := 0 }, { man := 1, exp := 0 },
           { man := 0, exp := 0 }])] }

/-- The parsed object of `file2` under the `fs2` file system. -/
def obj2 : Vasp2TraceOutput :=
  { vasp2trace_stdout := "trace.txt", parsed := parsed2 }

/-- The parse result of the malformed `lines9` (header count 0, block data
left over): the parse succeeds with empty dictionaries. -/
def out9 : V2TParsed :=
  { num_occ_bands := 5, soc := 0, num_symm_ops := 2,
    symm_ops := .mat
      [[{ man := 1, exp := 0 }, { man := 0, exp := 0 }, { man := 0, exp := 0 }],
       [{ man := 0, exp := 0 }, { man := 1, exp := 0 }, { man := 0, exp := 0 }]],
    num_max_kvec := 0,
    kvecs := .vec [],
    num_kvec_symm_ops := [], symm_ops_in_little_cogroup := [], traces := [] }

/-! # Theorems -/

/-! ## C1: what `BandTopologyAnalyzerOutput` construction actually stores -/

/-- Claim C1 (code bug evaluation).  Constructing the output record does
*not* store the Chern/Z2 extractions of the convergence result and the
surface function at `t1`/`t2`: the call `self._parse_result(self, result)`
shifts the arguments, so the extractions are applied to the output object
itself (`zobj 0`) and the convergence result (`zobj 1`) is called in place
of the surface function (`zobj 2`).  The behaviour the claim describes
(`bta_output_claimed`) gives a different record on the same inputs. -/
theorem c1_code_evaluation :
    bta_output_init ext0 (.zobj 0) (.zobj 1) (.zobj 2) =
      .ok { result := .zobj 1, surface := .zobj 3001,
            chern_number := .zobj 1000, z2_invariant := .zobj 2000 } ∧
    bta_output_claimed ext0 (.zobj 1) (.zobj 2) =
      .ok { result := .zobj 1, surface := .zobj 3002,
            chern_number := .zobj 1001, z2_invariant := .zobj 2001 } ∧
    (ZVal.zobj 1000 : ZVal) ≠ .zobj 1001 ∧ (ZVal.zobj 3001 : ZVal) ≠ .zobj 3002 := by
  refine ⟨rfl, rfl, by decide, by decide⟩

/-! ## C3: settings merging in `BandTopologyAnalyzer.run` -/

/-- Claim C3 is false as stated: a settings mapping carrying the recognized
key `load` and the unrecognized key `foo` produces a call whose keyword
settings are exactly the seven fixed keys — `load` is not handed to the
external routine at all, and `foo` is dropped rather than passed through. -/
theorem c3_counterexample :
    (bta_run_kwargs (some [("load", ZVal.zbool false), ("foo", ZVal.zint 7)])).map
        (fun l => l.map Prod.fst) =
      .ok ["pos_tol", "gap_tol", "move_tol", "num_lines",
           "min_neighbour_dist", "iterator", "save_file"] := by decide

/-- Lookup on a nonempty dictionary: take the head entry when its key
matches, recurse otherwise. -/
theorem zdictGet_cons (p : String × ZVal) (d : List (String × ZVal))
    (k : String) :
    zdictGet (p :: d) k = if p.1 = k then .ok p.2 else zdictGet d k := by
  rw [zdictGet]
  by_cases hp : p.1 = k
  · rw [List.find?_cons_of_pos _ (by simp [hp]), if_pos hp]
  · rw [List.find?_cons_of_neg _ (by simp [hp]), if_neg hp]; rfl

/-- Updating a dictionary entry and then looking a key up: the looked-up
value is replaced exactly when the updated key is the looked-up key. -/
theorem zdictGet_replace (d : List (String × ZVal)) (x : String) (w : ZVal)
    (k : String) (v : ZVal) (h : zdictGet d k = .ok v) :
    zdictGet (d.map (fun p => if p.1 = x then (p.1, w) else p)) k =
      .ok (if x = k then w else v) := by
  induction d with
  | nil => simp [zdictGet] at h
  | cons p rest ih =>
    rw [zdictGet_cons] at h
    have hfst : (if p.1 = x then (p.1, w) else p).1 = p.1 := by
      by_cases hx : p.1 = x <;> simp [hx]
    rw [List.map_cons, zdictGet_cons, hfst]
    by_cases hp : p.1 = k
    · rw [if_pos hp]; rw [if_pos hp] at h
      injection h with hv
      by_cases hx : x = k
      · have hpx : p.1 = x := by rw [hp, hx]
        rw [if_pos hpx, if_pos hx]
      · have hpx : ¬ p.1 = x := fun hc => hx (by rw [← hc, hp])
        rw [if_neg hpx, if_neg hx, hv]
    · rw [if_neg hp]; rw [if_neg hp] at h
      exact ih h

/-- Appending an entry does not change lookups of keys already present. -/
theorem zdictGet_append_of_found (d : List (String × ZVal)) (x : String × ZVal)
    (k : String) (v : ZVal) (h : zdictGet d k = .ok v) :
    zdictGet (d ++ [x]) k = .ok v := by
  rw [zdictGet] at h ⊢
  cases hf : d.find? (fun p => p.1 = k) with
  | none => rw [hf] at h; exact absurd h (by simp)
  | some p => rw [List.find?_append, hf]; rw [hf] at h; exact h

/-- A key that resolves in a dictionary occurs among its keys. -/
theorem contains_of_zdictGet (d : List (String × ZVal)) (k : String) (v : ZVal)
    (h : zdictGet d k = .ok v) : (d.map Prod.fst).contains k = true := by
  rw [zdictGet] at h
  cases hf : d.find? (fun p => p.1 = k) with
  | none => rw [hf] at h; exact absurd h (by simp)
  | some p =>
    have hmem : p ∈ d := List.mem_of_find?_eq_some hf
    have hk : p.1 = k := by simpa using List.find?_some hf
    have : k ∈ d.map Prod.fst := List.mem_map.mpr ⟨p, hmem, hk⟩
    simpa [List.contains] using this

/-- `dict.update({k: v})` followed by lookup. -/
theorem zdictGet_update (d : List (String × ZVal)) (kv : String × ZVal)
    (k : String) (v : ZVal) (h : zdictGet d k = .ok v) :
    zdictGet (dictUpdate d kv) k = .ok (if kv.1 = k then kv.2 else v) := by
  rw [dictUpdate]
  by_cases hc : (d.map Prod.fst).contains kv.1
  · rw [if_pos hc]; exact zdictGet_replace d kv.1 kv.2 k v h
  · rw [if_neg hc]
    by_cases hk : kv.1 = k
    · exact absurd (hk ▸ contains_of_zdictGet d k v h) hc
    · rw [if_neg hk]; exact zdictGet_append_of_found d kv k v h

/-- Peeling one entry off a settings list: the override of the remaining
entries applies to the default already overridden by the first entry. -/
theorem settingOr_cons (x : String × ZVal) (s : List (String × ZVal))
    (k : String) (v : ZVal) :
    settingOr (x :: s) k v = settingOr s k (if x.1 = k then x.2 else v) := by
  unfold settingOr
  rw [List.reverse_cons, List.find?_append]
  cases hf : s.reverse.find? (fun p => p.1 = k) with
  | none =>
    by_cases hx : x.1 = k <;> simp [Option.or, List.find?, hx]
  | some p => simp [Option.or]

/-- Lookup after the settings loop: each key resolves to its last override,
falling back to its prior value. -/
theorem zdictGet_updateAll (s : List (String × ZVal)) (d : List (String × ZVal))
    (k : String) (v : ZVal) (h : zdictGet d k = .ok v) :
    zdictGet (dictUpdateAll d s) k = .ok (settingOr s k v) := by
  induction s generalizing d v with
  | nil =>
    rw [dictUpdateAll, List.foldl_nil]
    simpa [settingOr] using h
  | cons x s ih =>
    rw [dictUpdateAll, List.foldl_cons, settingOr_cons]
    exact ih (dictUpdate d x) (if x.1 = k then x.2 else v) (zdictGet_update d x k v h)

/-- Claim C3 (amended).  For every settings mapping, the keyword settings
handed to `z2pack.surface.run` are exactly the seven keys `pos_tol`,
`gap_tol`, `move_tol`, `num_lines`, `min_neighbour_dist`, `iterator` and
`save_file`, each carrying the last value the mapping assigns to it and its
documented default when the mapping does not mention it.  In particular the
recognized key `load` and all unrecognized keys are merged into the
settings dictionary but never handed to the external routine. -/
theorem c3_settings_merge (s : List (String × ZVal)) :
    bta_run_kwargs (some s) =
      .ok [("pos_tol", settingOr s "pos_tol" (.zdec { man := 1, exp := -2 })),
           ("gap_tol", settingOr s "gap_tol" (.zdec { man := 3, exp := -1 })),
           ("move_tol", settingOr s "move_tol" (.zdec { man := 3, exp := -1 })),
           ("num_lines", settingOr s "num_lines" (.zint 11)),
           ("min_neighbour_dist",
              settingOr s "min_neighbour_dist" (.zdec { man := 1, exp := -2 })),
           ("iterator", settingOr s "iterator" (.zrange 8 27 2)),
           ("save_file", settingOr s "save_file" (.zstr "z2run.json"))] := by
  by_cases hs : s = []
  · subst hs; rfl
  · rw [bta_run_kwargs]
    rw [if_pos hs]
    rw [zdictGet_updateAll s z2_defaults "pos_tol" _ rfl,
        zdictGet_updateAll s z2_defaults "gap_tol" _ rfl,
        zdictGet_updateAll s z2_defaults "move_tol" _ rfl,
        zdictGet_updateAll s z2_defaults "num_lines" _ rfl,
        zdictGet_updateAll s z2_defaults "min_neighbour_dist" _ rfl,
        zdictGet_updateAll s z2_defaults "iterator" _ rfl,
        zdictGet_updateAll s z2_defaults "save_file" _ rfl]
    rfl

/-! ## C4: block-boundary detection -/

/-- Membership in the single-fragment scan: position `off + k` is recorded
exactly when line `k` of the scanned list has exactly one space-split
nonempty fragment. -/
theorem mem_singles (ls : List String) : ∀ (off j : Int),
    j ∈ singles ls off ↔
      ∃ k : Nat, ∃ l, ls.get? k = some l ∧ j = off + (k : Int) ∧
        (fragsOf l).length = 1 := by
  induction ls with
  | nil => intro off j; simp [singles]
  | cons a ls ih =>
    intro off j
    by_cases ha : (fragsOf a).length = 1
    · rw [singles, if_pos ha, List.mem_cons, ih (off + 1) j]
      constructor
      · rintro (rfl | ⟨k, l, h1, h2, h3⟩)
        · exact ⟨0, a, rfl, by simp, ha⟩
        · refine ⟨k + 1, l, by simpa using h1, ?_, h3⟩
          push_cast at h2 ⊢
          omega
      · rintro ⟨k, l, h1, h2, h3⟩
        cases k with
        | zero =>
          left
          simp only [List.get?] at h1
          injection h1 with h1
          subst h1
          simpa using h2
        | succ k =>
          right
          refine ⟨k, l, by simpa using h1, ?_, h3⟩
          push_cast at h2 ⊢
          omega
    · rw [singles, if_neg ha, ih (off + 1) j]
      constructor
      · rintro ⟨k, l, h1, h2, h3⟩
        refine ⟨k + 1, l, by simpa using h1, ?_, h3⟩
        push_cast at h2 ⊢
        omega
      · rintro ⟨k, l, h1, h2, h3⟩
        cases k with
        | zero =>
          simp only [List.get?] at h1
          injection h1 with h1
          subst h1
          exact absurd h3 ha
        | succ k =>
          refine ⟨k, l, by simpa using h1, ?_, h3⟩
          push_cast at h2 ⊢
          omega

/-- Claim C4 (amended).  For a scan start `i ≥ 0`, line index `j` is
recorded in `block_starts` exactly when `j` lies at or after the scan start
and line `j`, split on the single space character with empty fragments
discarded (the trailing newline is not discarded), has exactly one
fragment.  (Splitting on whitespace runs is *not* equivalent: a bare
newline line has one space-split fragment but zero whitespace tokens.) -/
theorem c4_block_start_rule (lines : List String) (i : Int) (hi : 0 ≤ i)
    (j : Int) :
    j ∈ blockStarts lines i ↔
      i ≤ j ∧ ∃ l, lines.get? j.toNat = some l ∧ (fragsOf l).length = 1 := by
  unfold blockStarts pySliceFrom pySliceNorm
  rw [if_neg (by omega : ¬ i < 0)]
  have hd : lines.drop (min i.toNat lines.length) = lines.drop i.toNat := by
    rcases le_total i.toNat lines.length with h | h
    · rw [min_eq_left h]
    · rw [min_eq_right h, List.drop_eq_nil_of_le (le_refl _),
        List.drop_eq_nil_of_le h]
  rw [hd, mem_singles]
  constructor
  · rintro ⟨k, l, h1, h2, h3⟩
    rw [List.get?_drop] at h1
    refine ⟨by omega, l, ?_, h3⟩
    have hj : j.toNat = i.toNat + k := by omega
    rw [hj]
    exact h1
  · rintro ⟨hij, l, h1, h3⟩
    refine ⟨j.toNat - i.toNat, l, ?_, by omega, h3⟩
    rw [List.get?_drop]
    have hj : i.toNat + (j.toNat - i.toNat) = j.toNat := by omega
    rw [hj]
    exact h1

/-- Claim C4 is false as stated: in a scan of these three lines from the
start of the trace section, the bare-newline line at index 2 is recorded as
a block start although it has zero whitespace tokens rather than one, and a
tab-separated two-token line is recorded as a block start although it has
two whitespace tokens. -/
theorem c4_counterexample :
    blockStarts ["12\n", "1 2\n", "\n"] 0 = [0, 2] ∧
    (pySplitWs "\n").length = 0 ∧
    blockStarts ["1\t2\n"] 0 = [0] ∧
    (pySplitWs "1\t2\n").length = 2 := by
  refine ⟨by decide, by decide, by decide, by decide⟩

/-- Witness for the amended C4 rule at a concrete scan. -/
theorem c4_witness :
    (0 : Int) ≤ 1 ∧
    ((2 : Int) ∈ blockStarts ["12\n", "1 2\n", "\n"] 1 ↔
      (1 : Int) ≤ 2 ∧ ∃ l, ["12\n", "1 2\n", "\n"].get? (2 : Int).toNat = some l ∧
        (fragsOf l).length = 1) :=
  ⟨by decide, c4_block_start_rule ["12\n", "1 2\n", "\n"] 1 (by decide) 2⟩

/-! ## C7, C8, C10: the external caller -/

/-- Claim C7.  If either prerequisite file is missing from the folder, the
constructor raises `FileNotFoundError` with no effects at all: the working
directory is unchanged and in particular no subprocess is spawned. -/
theorem c7_missing_files (env : V2TEnv α) (st : CallerState) (folder : String)
    (h : env.isfile (folder ++ "/OUTCAR") = false ∨
         env.isfile (folder ++ "/WAVECAR") = false) :
    vasp2trace_caller_init env st folder = (st, [], .error .fileNotFoundError) := by
  unfold vasp2trace_caller_init
  rcases h with h | h <;> simp [h]

/-- Witness for C7: a concrete environment with no prerequisite files. -/
theorem c7_witness :
    env7.isfile ("calc" ++ "/OUTCAR") = false ∧
    vasp2trace_caller_init env7 { cwd := "/home" } "calc" =
      ({ cwd := "/home" }, [], .error .fileNotFoundError) :=
  ⟨rfl, c7_missing_files env7 { cwd := "/home" } "calc" (Or.inl rfl)⟩

/-- Claim C8.  With both prerequisite files present: a non-zero subprocess
exit code makes the constructor raise `RuntimeError` whose message carries
that exit code, with the stderr warning (when any stderr was captured)
already issued in the effect trace before the constructor returns; a zero
exit code produces no such failure — the outcome is exactly whatever
parsing the captured stdout yields. -/
theorem c8_exit_code (env : V2TEnv α) (st : CallerState) (folder : String)
    (h1 : env.isfile (folder ++ "/OUTCAR") = true)
    (h2 : env.isfile (folder ++ "/WAVECAR") = true) :
    (env.run_vasp2trace.returncode ≠ 0 →
      vasp2trace_caller_init env st folder =
        ({ cwd := folder },
         [OsEffect.chdir folder, OsEffect.spawn "vasp2trace"] ++
           (if env.run_vasp2trace.stderr ≠ "" then
             [OsEffect.warn env.run_vasp2trace.stderr] else []),
         .error (.runtimeError ("vasp2trace exited with return code " ++
           toString env.run_vasp2trace.returncode ++ ".")))) ∧
    (env.run_vasp2trace.returncode = 0 →
      (vasp2trace_caller_init env st folder).2.2 =
        (env.parse_output env.run_vasp2trace.stdout).map
          (fun o => { stdout := env.run_vasp2trace.stdout,
                      stderr := env.run_vasp2trace.stderr, output := o })) := by
  constructor
  · intro hrc
    unfold vasp2trace_caller_init
    simp [h1, h2, hrc]
  · intro hrc
    unfold vasp2trace_caller_init
    simp only [h1, h2, Bool.not_true, Bool.or_self, Bool.false_eq_true,
      if_false, hrc]
    cases henv : env.parse_output env.run_vasp2trace.stdout <;>
      simp [henv, Except.map, hrc]

/-- Witness for C8: a concrete environment whose subprocess exits with
code 3 after writing to stderr. -/
theorem c8_witness :
    env8.isfile ("calc" ++ "/OUTCAR") = true ∧
    ((env8.run_vasp2trace.returncode ≠ 0 →
      vasp2trace_caller_init env8 { cwd := "/home" } "calc" =
        ({ cwd := "calc" },
         [OsEffect.chdir "calc", OsEffect.spawn "vasp2trace"] ++
           (if env8.run_vasp2trace.stderr ≠ "" then
             [OsEffect.warn env8.run_vasp2trace.stderr] else []),
         .error (.runtimeError ("vasp2trace exited with return code " ++
           toString env8.run_vasp2trace.returncode ++ ".")))) ∧
     (env8.run_vasp2trace.returncode = 0 →
      (vasp2trace_caller_init env8 { cwd := "/home" } "calc").2.2 =
        (env8.parse_output env8.run_vasp2trace.stdout).map
          (fun o => { stdout := env8.run_vasp2trace.stdout,
                      stderr := env8.run_vasp2trace.stderr, output := o }))) :=
  ⟨rfl, c8_exit_code env8 { cwd := "/home" } "calc" rfl rfl⟩

/-- Claim C10.  Whenever both prerequisite files exist, the constructor
changes the process-wide working directory to the given folder (the first
recorded effect) and that change persists in the final state, on the
success path and on every failure path alike — in particular when the
constructor raises because the subprocess exited non-zero. -/
theorem c10_chdir_persists (env : V2TEnv α) (st : CallerState) (folder : String)
    (h1 : env.isfile (folder ++ "/OUTCAR") = true)
    (h2 : env.isfile (folder ++ "/WAVECAR") = true) :
    (vasp2trace_caller_init env st folder).1 = { cwd := folder } ∧
    (vasp2trace_caller_init env st folder).2.1.head? =
      some (.chdir folder) := by
  unfold vasp2trace_caller_init
  simp only [h1, h2, Bool.not_true, Bool.or_self, Bool.false_eq_true, if_false]
  by_cases hrc : env.run_vasp2trace.returncode ≠ 0
  · simp [hrc]
  · cases henv : env.parse_output env.run_vasp2trace.stdout <;> simp [hrc, henv]

/-- Witness for C10: the directory change persists although the
environment's subprocess exits with code 3 and the constructor raises. -/
theorem c10_witness :
    env8.isfile ("calc" ++ "/OUTCAR") = true ∧
    (vasp2trace_caller_init env8 { cwd := "/home" } "calc").1 = { cwd := "calc" } ∧
    (vasp2trace_caller_init env8 { cwd := "/home" } "calc").2.1.head? =
      some (.chdir "calc") :=
  ⟨rfl,
    (c10_chdir_persists env8 { cwd := "/home" } "calc" rfl rfl).1,
    (c10_chdir_persists env8 { cwd := "/home" } "calc" rfl rfl).2⟩

/-! ## Indexing and slicing at in-range natural positions -/

/-- `pyGet` at a valid natural index returns the element. -/
theorem pyGet_nat (l : List α) (k : Nat) (x : α) (h : l.get? k = some x) :
    pyGet l (k : Int) = .ok x := by
  obtain ⟨hk, -⟩ := List.get?_eq_some.mp h
  have hneg : ¬ ((k : Int) < 0) := by omega
  simp only [pyGet, hneg, if_false]
  rw [if_pos ⟨by omega, by omega⟩]
  rw [Int.toNat_natCast, h]

/-- `pyGet` past the end raises `IndexError`. -/
theorem pyGet_err (l : List α) (k : Nat) (h : l.length ≤ k) :
    pyGet l (k : Int) = .error .indexError := by
  have hneg : ¬ ((k : Int) < 0) := by omega
  simp only [pyGet, hneg, if_false]
  rw [if_neg (fun hc => by omega)]

/-- A Python slice with natural endpoints, the upper one in range, is a
drop-and-take. -/
theorem pySlice_nat (l : List α) (a b : Nat) (hb : b ≤ l.length) :
    pySlice l (a : Int) (b : Int) = (l.drop a).take (b - a) := by
  have hna : ¬ ((a : Int) < 0) := by omega
  have hnb : ¬ ((b : Int) < 0) := by omega
  simp only [pySlice, pySliceNorm, hna, hnb, if_false, Int.toNat_natCast]
  rw [min_eq_left hb]
  rcases le_total a l.length with h | h
  · rw [min_eq_left h]
  · rw [min_eq_right h, List.drop_eq_nil_of_le (le_refl _),
      List.drop_eq_nil_of_le h]
    simp

/-- A Python tail slice with a natural start is a drop. -/
theorem pySliceFrom_nat (l : List α) (a : Nat) :
    pySliceFrom l (a : Int) = l.drop a := by
  have hna : ¬ ((a : Int) < 0) := by omega
  simp only [pySliceFrom, pySliceNorm, hna, if_false, Int.toNat_natCast]
  rcases le_total a l.length with h | h
  · rw [min_eq_left h]
  · rw [min_eq_right h, List.drop_eq_nil_of_le (le_refl _),
      List.drop_eq_nil_of_le h]

/-! ## Traversal lemmas -/

/-- A pointwise-successful effectful map is the pure map. -/
theorem mapEx_ok_of_all (f : α → Except PyErr β) (g : α → β) (ts : List α)
    (h : ∀ t ∈ ts, f t = .ok (g t)) :
    mapEx f ts = .ok (ts.map g) := by
  induction ts with
  | nil => rfl
  | cons t ts ih =>
    simp only [mapEx, h t (by simp)]
    rw [ih (fun u hu => h u (by simp [hu]))]
    rfl

/-- A successful option-map is the pure map of the defaulted function. -/
theorem mapOpt_some_eq (f : α → Option β) (d : β) (xs : List α) (ys : List β)
    (h : mapOpt f xs = some ys) :
    ys = xs.map (fun x => (f x).getD d) := by
  induction xs generalizing ys with
  | nil =>
    simp only [mapOpt] at h
    injection h with h
    rw [← h, List.map_nil]
  | cons x xs ih =>
    simp only [mapOpt] at h
    cases hf : f x with
    | none => rw [hf] at h; exact absurd h (by simp)
    | some b =>
      rw [hf] at h
      cases hm : mapOpt f xs with
      | none => rw [hm] at h; exact absurd h (by simp)
      | some bs =>
        rw [hm] at h
        injection h with h
        rw [← h, List.map_cons, ← ih bs hm]
        simp [hf]

/-- An integer token accepted by `int` converts without an exception. -/
theorem pyIntTok_ok (t : List Char) (h : (pyIntCore (String.mk t)).isSome) :
    pyIntTok t = .ok ((pyIntCore (String.mk t)).getD 0) := by
  cases hc : pyIntCore (String.mk t) with
  | none => rw [hc] at h; exact absurd h (by simp)
  | some n => simp [pyIntTok, hc]

/-! ## numpy.loadtxt on well-formed tables -/

/-- Unfolding a successful row conversion. -/
theorem rowVal_spec (l : String) (w : Nat) (h : rowWidth l = some w) :
    mapOpt pyFloatCore (npCleanTokens l) = some (cleanRowVal l) ∧
    npCleanTokens l ≠ [] ∧ (cleanRowVal l).length = w := by
  unfold rowWidth at h
  cases hm : mapOpt pyFloatCore (npCleanTokens l) with
  | none => rw [hm] at h; exact absurd h (by simp)
  | some r =>
    rw [hm] at h
    change (if r = [] then none else some r.length) = some w at h
    by_cases hr : r = []
    · rw [if_pos hr] at h; exact absurd h (by simp)
    · rw [if_neg hr] at h
      injection h with h
      have hrv : r = cleanRowVal l := by
        rw [cleanRowVal]
        exact mapOpt_some_eq pyFloatCore { man := 0, exp := 0 } _ r hm
      have hne : npCleanTokens l ≠ [] := by
        intro he
        rw [he] at hm
        simp only [mapOpt] at hm
        injection hm with hm
        exact hr hm.symm
      exact ⟨by rw [← hrv], hne, by rw [← hrv, ← h]⟩

/-- On a table whose rows all have width `w`, the numpy row list is the
defaulted conversion of every line. -/
theorem loadtxt_rows (ls : List String) (w : Nat)
    (hw : ∀ l ∈ ls, rowWidth l = some w) :
    mapOpt (fun ts => mapOpt pyFloatCore ts)
        ((ls.map npCleanTokens).filter (fun ts => ts ≠ [])) =
      some (ls.map cleanRowVal) := by
  induction ls with
  | nil => rfl
  | cons l ls ih =>
    obtain ⟨h1, h2, -⟩ := rowVal_spec l w (hw l (by simp))
    simp only [List.map_cons]
    rw [List.filter_cons_of_pos (by simpa using h2)]
    simp only [mapOpt, h1]
    rw [ih (fun u hu => hw u (by simp [hu]))]

/-- `npLoadVal` of a table with at least two rows is the matrix of row
values. -/
theorem npLoadVal_mat (ls : List String) (h : 2 ≤ ls.length) :
    npLoadVal ls = .mat (ls.map cleanRowVal) := by
  rcases ls with _ | ⟨l1, _ | ⟨l2, rest⟩⟩
  · simp at h
  · simp at h
  · rfl

/-- `np.loadtxt` on a rectangular table of width at least two succeeds with
the expected value. -/
theorem np_loadtxt_wf (ls : List String) (w : Nat) (hw2 : 2 ≤ w)
    (hw : ∀ l ∈ ls, rowWidth l = some w) :
    np_loadtxt ls = .ok (npLoadVal ls) := by
  simp only [np_loadtxt]
  rw [loadtxt_rows ls w hw]
  rcases ls with _ | ⟨l1, _ | ⟨l2, rest⟩⟩
  · rfl
  · obtain ⟨-, -, h3⟩ := rowVal_spec l1 w (hw l1 (by simp))
    rcases hr : cleanRowVal l1 with _ | ⟨x, _ | ⟨y, r⟩⟩
    · rw [hr] at h3; simp at h3; omega
    · rw [hr] at h3; simp at h3; omega
    · simp only [List.map_cons, List.map_nil, npLoadVal, hr]
  · obtain ⟨-, -, h31⟩ := rowVal_spec l1 w (hw l1 (by simp))
    have hall : (((l2 :: rest).map cleanRowVal).all
        (fun q => q.length = (cleanRowVal l1).length)) = true := by
      rw [List.all_eq_true]
      intro q hq
      obtain ⟨u, hu, hq⟩ := List.mem_map.mp hq
      obtain ⟨-, -, h3u⟩ := rowVal_spec u w (hw u (by simp [hu]))
      simp [← hq, h3u, h31]
    rw [npLoadVal_mat _ (by simp)]
    simp only [List.map_cons] at hall ⊢
    rw [if_pos hall]
    rw [if_neg (by omega : ¬ (cleanRowVal l1).length = 1)]

/-! ## Reduction helpers for the exception monad -/

/-- Bind on a success. -/
theorem exbind_ok (a : α) (f : α → Except PyErr β) :
    (Except.ok a >>= f) = f a := rfl

/-- Bind on a raised exception. -/
theorem exbind_err (e : PyErr) (f : α → Except PyErr β) :
    ((Except.error e : Except PyErr α) >>= f) = .error e := rfl

/-- `pure` in the exception monad. -/
theorem expure (a : α) : (pure a : Except PyErr α) = .ok a := rfl

/-! ## The block-boundary scan on well-formed files -/

/-- The scan distributes over concatenation, shifting the offset. -/
theorem singles_append (xs ys : List String) :
    ∀ j : Int, singles (xs ++ ys) j = singles xs j ++ singles ys (j + (xs.length : Int)) := by
  induction xs with
  | nil => intro j; simp [singles]
  | cons a xs ih =>
    intro j
    have hlen : j + 1 + (xs.length : Int) = j + ((a :: xs).length : Int) := by
      simp only [List.length_cons]
      push_cast
      ring
    simp only [List.cons_append, singles, List.append_eq]
    by_cases ha : (fragsOf a).length = 1
    · rw [if_pos ha, if_pos ha, ih (j + 1), hlen, List.cons_append]
    · rw [if_neg ha, if_neg ha, ih (j + 1), hlen]

/-- A stretch with no single-fragment line contributes nothing. -/
theorem singles_nil_of (ls : List String)
    (h : ∀ l ∈ ls, (fragsOf l).length ≠ 1) : ∀ j, singles ls j = [] := by
  induction ls with
  | nil => intro j; rfl
  | cons a ls ih =>
    intro j
    rw [singles, if_neg (h a (by simp))]
    exact ih (fun l hl => h l (by simp [hl])) (j + 1)

/-- Unpacking block well-formedness. -/
theorem wfBlock_spec (b : V2TBlock) (h : wfBlock b = true) :
    (fragsOf b.countLine).length = 1 ∧
    pyIntCore b.countLine = some (countOf b) ∧
    (∀ t ∈ soilcgToks b.indexLine, (pyIntCore (String.mk t)).isSome = true) ∧
    (fragsOf b.indexLine).length ≠ 1 ∧
    (∀ l ∈ b.traceLines, (fragsOf l).length ≠ 1) ∧
    np_loadtxt b.traceLines = .ok (npLoadVal b.traceLines) := by
  unfold wfBlock at h
  simp only [Bool.and_eq_true] at h
  obtain ⟨⟨⟨h1, h2⟩, h3⟩, h4⟩ := h
  refine ⟨by simpa using h1, ?_, ?_, by simpa using h3, ?_, ?_⟩
  · split at h2
    · rename_i n heq
      simp only [Bool.and_eq_true, decide_eq_true_eq] at h2
      rw [heq, h2.2, countOf]
    · exact absurd h2 (by simp)
  · split at h2
    · rename_i n heq
      simp only [Bool.and_eq_true, List.all_eq_true] at h2
      intro t ht
      simpa using h2.1 t ht
    · exact absurd h2 (by simp)
  · split at h4
    · rename_i heq
      intro l hl
      rw [heq] at hl
      exact absurd hl (by simp)
    · rename_i l rest heq
      split at h4
      · rename_i w hrw
        simp only [Bool.and_eq_true, List.all_eq_true] at h4
        intro q hq
        exact (by simpa using (h4.2 q hq).2)
      · exact absurd h4 (by simp)
  · split at h4
    · rename_i heq
      rw [heq]
      rfl
    · rename_i l rest heq
      split at h4
      · rename_i w hrw
        simp only [Bool.and_eq_true, List.all_eq_true, decide_eq_true_eq] at h4
        refine np_loadtxt_wf b.traceLines w (by simpa using h4.1) ?_
        intro q hq
        exact (h4.2 q hq).1
      · exact absurd h4 (by simp)

/-- A well-formed block contributes exactly its first line to the scan. -/
theorem singles_block (b : V2TBlock) (hb : wfBlock b = true) (j : Int) :
    singles (blockLines b) j = [j] := by
  obtain ⟨h1, -, -, h4, h5, -⟩ := wfBlock_spec b hb
  rw [blockLines, singles, if_pos h1, singles, if_neg h4,
    singles_nil_of b.traceLines h5 (j + 1 + 1)]

/-- The scan over the concatenated well-formed blocks yields exactly the
block start positions. -/
theorem singles_blocks (bs : List V2TBlock)
    (hb : ∀ b ∈ bs, wfBlock b = true) :
    ∀ j : Int, singles ((bs.map blockLines).flatten) j = startPositions bs j := by
  induction bs with
  | nil => intro j; rfl
  | cons b bs ih =>
    intro j
    rw [List.map_cons, List.flatten_cons, singles_append,
      singles_block b (hb b (by simp)) j,
      ih (fun u hu => hb u (by simp [hu])), startPositions]
    have hlen : j + ((blockLines b).length : Int) =
        j + 2 + (b.traceLines.length : Int) := by
      simp only [blockLines, List.length_cons]
      push_cast
      ring
    rw [hlen]
    rfl

/-- The k-vector loop over a well-formed suffix of blocks: starting at
index `idx` with one iterator element per block and the matching start
positions, it succeeds and appends exactly one entry per block to each
dictionary. -/
theorem parseLoop_blocks :
    ∀ (bs : List V2TBlock) (front : List String) (doneP : List Int)
      (idx : Nat) (K : Int) (kl : List NpArray)
      (d1 : List (Nat × Int)) (d2 : List (Nat × List Int))
      (d3 : List (Nat × NpArray)),
      (∀ b ∈ bs, wfBlock b = true) →
      kl.length = bs.length →
      doneP.length = idx →
      K = (idx : Int) + (bs.length : Int) →
      parseLoop (front ++ (bs.map blockLines).flatten)
          (doneP ++ startPositions bs (front.length : Int)) K kl idx d1 d2 d3 =
        .ok (d1 ++ blkCounts bs idx, d2 ++ blkSoilcg bs idx,
             d3 ++ blkTraces bs idx) := by
  intro bs
  induction bs with
  | nil =>
    intro front doneP idx K kl d1 d2 d3 hwf hkl hdone hK
    have hnil : kl = [] := List.length_eq_zero.mp (by simpa using hkl)
    subst hnil
    simp [parseLoop, blkCounts, blkSoilcg, blkTraces, startPositions]
  | cons b bs ih =>
    intro front doneP idx K kl d1 d2 d3 hwf hkl hdone hK
    obtain ⟨h1, h2, h3, h4, h5, h6⟩ := wfBlock_spec b (hwf b (by simp))
    cases kl with
    | nil => simp at hkl
    | cons a kl =>
    have hkl2 : kl.length = bs.length := by simpa using hkl
    rw [List.map_cons, List.flatten_cons, startPositions]
    simp only [parseLoop]
    have hpos0 : pyGet (doneP ++ (front.length : Int) ::
        startPositions bs ((front.length : Int) + 2 + (b.traceLines.length : Int)))
        (idx : Int) = .ok (front.length : Int) := by
      apply pyGet_nat
      rw [List.get?_append_right (by omega)]
      simp [hdone]
    rw [hpos0, exbind_ok]
    have hint : pyInt b.countLine = .ok (countOf b) := by simp [pyInt, h2]
    have hsoil : mapEx pyIntTok (soilcgToks b.indexLine) = .ok (soilcgVals b) :=
      mapEx_ok_of_all pyIntTok _ _ (fun t ht => pyIntTok_ok t (h3 t ht))
    have hcast1 : (front.length : Int) + 1 = ((front.length + 1 : Nat) : Int) := by
      push_cast
      ring
    have hcast2 : (front.length : Int) + 2 = ((front.length + 2 : Nat) : Int) := by
      push_cast
      ring
    rcases bs with _ | ⟨b2, bs2⟩
    · -- final block: the trace table is the tail slice to end of file
      have hklnil : kl = [] := List.length_eq_zero.mp (by simpa using hkl2)
      subst hklnil
      have hcond : ¬ ((idx : Int) < K - 1) := by
        simp only [List.length_cons, List.length_nil] at hK
        omega
      rw [if_neg hcond, expure, exbind_ok]
      simp only [List.map_nil, List.flatten_nil, List.append_nil]
      have hsplit : front ++ blockLines b =
          (front ++ [b.countLine, b.indexLine]) ++ b.traceLines := by
        simp [blockLines]
      have hslice : pySliceFrom (front ++ blockLines b)
          ((front.length : Int) + 2) = b.traceLines := by
        rw [hcast2, pySliceFrom_nat, hsplit,
          show front.length + 2 = (front ++ [b.countLine, b.indexLine]).length from by simp,
          List.drop_left]
      rw [hslice]
      have hgetc : pyGet (front ++ blockLines b) ((front.length : Int)) =
          .ok b.countLine := by
        apply pyGet_nat
        rw [List.get?_append_right (le_refl _)]
        simp [blockLines]
      rw [hgetc, exbind_ok, hint, exbind_ok]
      have hgeti : pyGet (front ++ blockLines b) ((front.length : Int) + 1) =
          .ok b.indexLine := by
        rw [hcast1]
        apply pyGet_nat
        rw [List.get?_append_right (by omega)]
        rw [show front.length + 1 - front.length = 1 from by omega]
        simp [blockLines]
      rw [hgeti, exbind_ok, hsoil, exbind_ok, h6, exbind_ok]
      simp [parseLoop, blkCounts, blkSoilcg, blkTraces]
    · -- an inner block: the trace table is the slice up to the next start
      have hcond : (idx : Int) < K - 1 := by
        simp only [List.length_cons] at hK
        push_cast at hK
        omega
      rw [if_pos hcond]
      have hpos1 : pyGet (doneP ++ (front.length : Int) ::
          startPositions (b2 :: bs2)
            ((front.length : Int) + 2 + (b.traceLines.length : Int)))
          ((idx : Int) + 1) =
          .ok ((front.length : Int) + 2 + (b.traceLines.length : Int)) := by
        rw [show (idx : Int) + 1 = ((idx + 1 : Nat) : Int) from by push_cast; ring]
        apply pyGet_nat
        rw [List.get?_append_right (by omega)]
        rw [show idx + 1 - doneP.length = 1 from by omega]
        simp [startPositions]
      rw [hpos1, exbind_ok, expure, exbind_ok]
      have hcast3 : (front.length : Int) + 2 + (b.traceLines.length : Int) =
          ((front.length + 2 + b.traceLines.length : Nat) : Int) := by
        push_cast
        ring
      have hsplit : front ++ (blockLines b ++ ((b2 :: bs2).map blockLines).flatten) =
          (front ++ [b.countLine, b.indexLine]) ++
            (b.traceLines ++ ((b2 :: bs2).map blockLines).flatten) := by
        simp [blockLines]
      have hslice : pySlice
          (front ++ (blockLines b ++ ((b2 :: bs2).map blockLines).flatten))
          ((front.length : Int) + 2)
          ((front.length : Int) + 2 + (b.traceLines.length : Int)) =
          b.traceLines := by
        rw [hcast3, hcast2,
          pySlice_nat _ _ _ (by simp [blockLines]; omega)]
        rw [show front.length + 2 + b.traceLines.length - (front.length + 2) =
          b.traceLines.length from by omega]
        rw [hsplit,
          show front.length + 2 = (front ++ [b.countLine, b.indexLine]).length from by simp,
          List.drop_left, List.take_left]
      rw [hslice]
      have hgetc : pyGet
          (front ++ (blockLines b ++ ((b2 :: bs2).map blockLines).flatten))
          ((front.length : Int)) = .ok b.countLine := by
        apply pyGet_nat
        rw [List.get?_append_right (le_refl _)]
        simp [blockLines]
      rw [hgetc, exbind_ok, hint, exbind_ok]
      have hgeti : pyGet
          (front ++ (blockLines b ++ ((b2 :: bs2).map blockLines).flatten))
          ((front.length : Int) + 1) = .ok b.indexLine := by
        rw [hcast1]
        apply pyGet_nat
        rw [List.get?_append_right (by omega)]
        rw [show front.length + 1 - front.length = 1 from by omega]
        simp [blockLines]
      rw [hgeti, exbind_ok, hsoil, exbind_ok, h6, exbind_ok]
      have hfl : ((front ++ blockLines b).length : Int) =
          (front.length : Int) + 2 + (b.traceLines.length : Int) := by
        simp only [List.length_append, blockLines, List.length_cons]
        push_cast
        ring
      have hrec := ih (front ++ blockLines b) (doneP ++ [(front.length : Int)])
        (idx + 1) K kl (d1 ++ [(idx, countOf b)]) (d2 ++ [(idx, soilcgVals b)])
        (d3 ++ [(idx, npLoadVal b.traceLines)])
        (fun u hu => hwf u (by simp [hu])) hkl2 (by simp [hdone])
        (by simp only [List.length_cons] at hK ⊢; push_cast at hK ⊢; omega)
      rw [hfl] at hrec
      simp only [List.append_assoc, List.singleton_append, List.cons_append,
        List.nil_append] at hrec ⊢
      rw [hrec]
      simp [blkCounts, blkSoilcg, blkTraces]

/-- Whole-file well-formedness, unpacked. -/
theorem wfFile_spec (D : V2TFile) (h : wfFile D = true) :
    (pyIntCore D.bandLine).isSome = true ∧
    (pyIntCore D.socLine).isSome = true ∧
    pyIntCore D.symmCountLine = some (D.symmLines.length : Int) ∧
    wfTable D.symmLines = true ∧
    pyIntCore D.kvecCountLine = some (D.kvecLines.length : Int) ∧
    (∀ l ∈ D.kvecLines, rowWidth l = some 3) ∧
    D.blocks.length = D.kvecLines.length ∧
    (∀ b ∈ D.blocks, wfBlock b = true) := by
  unfold wfFile at h
  simp only [Bool.and_eq_true, decide_eq_true_eq, List.all_eq_true] at h
  obtain ⟨⟨⟨⟨⟨⟨⟨ha, hb⟩, hc⟩, hd⟩, he⟩, hf⟩, hg⟩, hh⟩ := h
  exact ⟨ha, hb, hc, hd, he, fun l hl => by simpa using hf l hl, hg,
    fun b hb2 => hh b hb2⟩

/-- `int` on a convertible string succeeds with the converted value. -/
theorem pyInt_ok_of_isSome (s : String) (h : (pyIntCore s).isSome = true) :
    pyInt s = .ok ((pyIntCore s).getD 0) := by
  cases hc : pyIntCore s with
  | none => rw [hc] at h; exact absurd h (by simp)
  | some n => simp [pyInt, hc]

/-- A well-formed header table loads successfully. -/
theorem wfTable_loadtxt (ls : List String) (h : wfTable ls = true) :
    np_loadtxt ls = .ok (npLoadVal ls) := by
  unfold wfTable at h
  split at h
  · rfl
  · rename_i l rest
    split at h
    · rename_i w hrw
      simp only [Bool.and_eq_true, List.all_eq_true, decide_eq_true_eq] at h
      exact np_loadtxt_wf _ w (by simpa using h.1) (fun q hq => h.2 q hq)
    · exact absurd h (by simp)

/-! ## Decomposing an assembled file -/

/-- Lines 3 and following: the symmetry rows onward. -/
theorem assemble_drop3 (D : V2TFile) :
    (assemble D).drop 3 =
      D.symmLines ++ D.kvecCountLine ::
        (D.kvecLines ++ (D.blocks.map blockLines).flatten) := rfl

/-- The k-vector count line sits right after the symmetry rows. -/
theorem assemble_getkc (D : V2TFile) :
    (assemble D).get? (3 + D.symmLines.length) = some D.kvecCountLine := by
  rw [← List.get?_drop, assemble_drop3, List.get?_append_right (le_refl _)]
  simp

/-- Dropping the header and symmetry rows leaves the k-vectors onward. -/
theorem assemble_drop4 (D : V2TFile) :
    (assemble D).drop (4 + D.symmLines.length) =
      D.kvecLines ++ (D.blocks.map blockLines).flatten := by
  rw [show 4 + D.symmLines.length = 3 + (D.symmLines.length + 1) from by omega,
    ← List.drop_drop, assemble_drop3, ← List.drop_drop, List.drop_left]
  simp

/-- Dropping the whole header leaves exactly the concatenated blocks. -/
theorem assemble_dropHdr (D : V2TFile) :
    (assemble D).drop (4 + D.symmLines.length + D.kvecLines.length) =
      (D.blocks.map blockLines).flatten := by
  rw [← List.drop_drop, assemble_drop4, List.drop_left]

/-- The symmetry-operation slice of an assembled file. -/
theorem assemble_sliceS (D : V2TFile) :
    pySlice (assemble D) 3 (3 + (D.symmLines.length : Int)) = D.symmLines := by
  rw [show (3 : Int) = ((3 : Nat) : Int) from by norm_num,
    show ((3 : Nat) : Int) + (D.symmLines.length : Int) =
      ((3 + D.symmLines.length : Nat) : Int) from by push_cast; ring,
    pySlice_nat _ _ _ (by simp [assemble]; omega),
    show 3 + D.symmLines.length - 3 = D.symmLines.length from by omega,
    assemble_drop3]
  exact List.take_left _ _

/-- The k-vector slice of an assembled file. -/
theorem assemble_sliceK (D : V2TFile) :
    pySlice (assemble D) (4 + (D.symmLines.length : Int))
      (4 + (D.symmLines.length : Int) + (D.kvecLines.length : Int)) =
      D.kvecLines := by
  rw [show (4 : Int) + (D.symmLines.length : Int) =
      ((4 + D.symmLines.length : Nat) : Int) from by push_cast; ring,
    show ((4 + D.symmLines.length : Nat) : Int) + (D.kvecLines.length : Int) =
      ((4 + D.symmLines.length + D.kvecLines.length : Nat) : Int) from by
        push_cast; ring,
    pySlice_nat _ _ _ (by simp [assemble]; omega),
    show 4 + D.symmLines.length + D.kvecLines.length - (4 + D.symmLines.length) =
      D.kvecLines.length from by omega,
    assemble_drop4]
  exact List.take_left _ _

/-- Evaluating the header part of `_parse_stdout` on a well-formed file. -/
theorem parse_header_eval (D : V2TFile) (h : wfFile D = true) :
    parse_stdout (assemble D) =
      parseAfterHeader (assemble D) ((pyIntCore D.bandLine).getD 0)
        ((pyIntCore D.socLine).getD 0) (D.symmLines.length : Int)
        (npLoadVal D.symmLines) (D.kvecLines.length : Int)
        (npLoadVal D.kvecLines) := by
  obtain ⟨h1, h2, h3, h4, h5, h6, -, -⟩ := wfFile_spec D h
  unfold parse_stdout
  rw [show pyGet (assemble D) 0 = .ok D.bandLine from by
      simpa using pyGet_nat (assemble D) 0 D.bandLine rfl, exbind_ok]
  rw [pyInt_ok_of_isSome _ h1, exbind_ok]
  rw [show pyGet (assemble D) 1 = .ok D.socLine from by
      simpa using pyGet_nat (assemble D) 1 D.socLine rfl, exbind_ok]
  rw [pyInt_ok_of_isSome _ h2, exbind_ok]
  rw [show pyGet (assemble D) 2 = .ok D.symmCountLine from by
      simpa using pyGet_nat (assemble D) 2 D.symmCountLine rfl, exbind_ok]
  rw [show pyInt D.symmCountLine = .ok (D.symmLines.length : Int) from by
      simp [pyInt, h3], exbind_ok]
  rw [assemble_sliceS, wfTable_loadtxt _ h4, exbind_ok]
  rw [show pyGet (assemble D) (3 + (D.symmLines.length : Int)) =
      .ok D.kvecCountLine from by
      rw [show (3 : Int) + (D.symmLines.length : Int) =
        ((3 + D.symmLines.length : Nat) : Int) from by push_cast; ring]
      exact pyGet_nat _ _ _ (assemble_getkc D), exbind_ok]
  rw [show pyInt D.kvecCountLine = .ok (D.kvecLines.length : Int) from by
      simp [pyInt, h5], exbind_ok]
  rw [assemble_sliceK, np_loadtxt_wf D.kvecLines 3 (by omega) h6, exbind_ok]

/-- The block-boundary scan of an assembled well-formed file finds exactly
the block start positions, one per block. -/
theorem blockStarts_assemble (D : V2TFile)
    (hblocks : ∀ b ∈ D.blocks, wfBlock b = true) :
    blockStarts (assemble D)
      (5 + (D.kvecLines.length : Int) + (D.symmLines.length : Int) - 1) =
      startPositions D.blocks
        ((4 + D.symmLines.length + D.kvecLines.length : Nat) : Int) := by
  unfold blockStarts
  rw [show 5 + (D.kvecLines.length : Int) + (D.symmLines.length : Int) - 1 =
      ((4 + D.symmLines.length + D.kvecLines.length : Nat) : Int) from by
      push_cast; ring]
  rw [pySliceFrom_nat, assemble_dropHdr]
  exact singles_blocks D.blocks hblocks _

/-- Parsing an assembled well-formed file whose block count is not one:
the parse succeeds and returns the header values, the loaded tables and the
three dictionaries with one entry per block. -/
theorem parse_assemble_ok (D : V2TFile) (hwf : wfFile D = true)
    (hK1 : D.blocks.length ≠ 1) :
    parse_stdout (assemble D) = .ok
      { num_occ_bands := (pyIntCore D.bandLine).getD 0,
        soc := (pyIntCore D.socLine).getD 0,
        num_symm_ops := (D.symmLines.length : Int),
        symm_ops := npLoadVal D.symmLines,
        num_max_kvec := (D.kvecLines.length : Int),
        kvecs := npLoadVal D.kvecLines,
        num_kvec_symm_ops := blkCounts D.blocks 0,
        symm_ops_in_little_cogroup := blkSoilcg D.blocks 0,
        traces := blkTraces D.blocks 0 } := by
  obtain ⟨-, -, -, -, -, hkw, hbk, hblocks⟩ := wfFile_spec D hwf
  rw [parse_header_eval D hwf]
  simp only [parseAfterHeader]
  rw [blockStarts_assemble D hblocks]
  rcases hb0 : D.blocks with _ | ⟨bb, bbs⟩
  · -- no k-vectors at all: the loop body never runs
    have hkv : D.kvecLines = [] := by
      apply List.length_eq_zero.mp
      rw [← hbk, hb0]
      rfl
    rw [hkv]
    rw [show npLoadVal ([] : List String) = .vec [] from rfl]
    rw [show npEnum (NpArray.vec []) = .ok (([] : List FloatTok).map NpArray.scalar) from rfl,
      exbind_ok]
    simp only [startPositions, List.map_nil, parseLoop, exbind_ok]
    rfl
  · rcases bbs with _ | ⟨bb2, bbs2⟩
    · exact absurd (by rw [hb0]; rfl) hK1
    · -- at least two blocks, hence at least two k-vector rows
      rw [← hb0]
      have hkl2 : 2 ≤ D.kvecLines.length := by
        rw [← hbk, hb0]
        simp
      rw [npLoadVal_mat D.kvecLines hkl2]
      rw [show npEnum (NpArray.mat (D.kvecLines.map cleanRowVal)) =
          .ok ((D.kvecLines.map cleanRowVal).map NpArray.vec) from rfl, exbind_ok]
      have hrec := parseLoop_blocks D.blocks
        (D.bandLine :: D.socLine :: D.symmCountLine ::
          (D.symmLines ++ D.kvecCountLine :: D.kvecLines))
        [] 0 (D.kvecLines.length : Int)
        ((D.kvecLines.map cleanRowVal).map NpArray.vec) [] [] []
        hblocks (by simp [hbk]) rfl (by push_cast; omega)
      rw [show (D.bandLine :: D.socLine :: D.symmCountLine ::
          (D.symmLines ++ D.kvecCountLine :: D.kvecLines)).length =
          4 + D.symmLines.length + D.kvecLines.length from by simp; omega] at hrec
      rw [show (D.bandLine :: D.socLine :: D.symmCountLine ::
          (D.symmLines ++ D.kvecCountLine :: D.kvecLines)) ++
          (D.blocks.map blockLines).flatten = assemble D from by
          simp [assemble]] at hrec
      simp only [List.nil_append] at hrec
      rw [hrec, exbind_ok]

/-- Parsing an assembled well-formed file that declares exactly one maximal
k-vector raises `IndexError`: numpy collapses the single k-vector row to a
flat 3-vector, iteration walks its three components, and the second
iteration indexes past the end of the one-element `block_starts` list. -/
theorem parse_assemble_K1 (D : V2TFile) (hwf : wfFile D = true)
    (hk1 : D.blocks.length = 1) :
    parse_stdout (assemble D) = .error .indexError := by
  obtain ⟨-, -, -, -, -, hkw, hbk, hblocks⟩ := wfFile_spec D hwf
  obtain ⟨bb, hbb⟩ := List.length_eq_one.mp hk1
  have hkl1 : D.kvecLines.length = 1 := by omega
  obtain ⟨kv, hkv⟩ := List.length_eq_one.mp hkl1
  obtain ⟨hc1, hc2, hc3, hc4, hc5, hc6⟩ := wfBlock_spec bb (hblocks bb (by rw [hbb]; simp))
  rw [parse_header_eval D hwf]
  simp only [parseAfterHeader]
  rw [blockStarts_assemble D hblocks]
  rw [show npLoadVal D.kvecLines = .vec (cleanRowVal kv) from by rw [hkv]; exact rfl]
  rw [show npEnum (NpArray.vec (cleanRowVal kv)) =
      .ok ((cleanRowVal kv).map NpArray.scalar) from rfl, exbind_ok]
  obtain ⟨-, -, h3⟩ := rowVal_spec kv 3 (hkw kv (by rw [hkv]; simp))
  rcases hcv : cleanRowVal kv with _ | ⟨x, _ | ⟨y, zs⟩⟩
  · rw [hcv] at h3; simp at h3
  · rw [hcv] at h3; simp at h3
  · rw [hbb]
    simp only [startPositions]
    -- decomposition of the file around the single block
    have hdropBlk : (assemble D).drop
        (4 + D.symmLines.length + D.kvecLines.length) = blockLines bb := by
      rw [assemble_dropHdr, hbb]
      simp
    have hdropTr : (assemble D).drop
        (4 + D.symmLines.length + D.kvecLines.length + 2) = bb.traceLines := by
      rw [← List.drop_drop, hdropBlk]
      simp [blockLines]
    have hgetc : (assemble D).get?
        (4 + D.symmLines.length + D.kvecLines.length) = some bb.countLine := by
      rw [← Nat.add_zero (4 + D.symmLines.length + D.kvecLines.length),
        ← List.get?_drop, hdropBlk]
      rfl
    have hgeti : (assemble D).get?
        (4 + D.symmLines.length + D.kvecLines.length + 1) = some bb.indexLine := by
      rw [← List.get?_drop, hdropBlk]
      rfl
    simp only [parseLoop]
    rw [show pyGet [((4 + D.symmLines.length + D.kvecLines.length : Nat) : Int)]
        ((0 : Nat) : Int) =
        .ok ((4 + D.symmLines.length + D.kvecLines.length : Nat) : Int) from
        pyGet_nat _ 0 _ rfl, exbind_ok]
    rw [if_neg (show ¬ (((0 : Nat) : Int) < (D.kvecLines.length : Int) - 1) from by
      omega), expure, exbind_ok]
    rw [show pySliceFrom (assemble D)
        (((4 + D.symmLines.length + D.kvecLines.length : Nat) : Int) + 2) =
        bb.traceLines from by
      rw [show ((4 + D.symmLines.length + D.kvecLines.length : Nat) : Int) + 2 =
        ((4 + D.symmLines.length + D.kvecLines.length + 2 : Nat) : Int) from by
          push_cast; ring]
      rw [pySliceFrom_nat]
      exact hdropTr]
    rw [show pyGet (assemble D)
        ((4 + D.symmLines.length + D.kvecLines.length : Nat) : Int) =
        .ok bb.countLine from pyGet_nat _ _ _ hgetc, exbind_ok]
    rw [show pyInt bb.countLine = .ok (countOf bb) from by simp [pyInt, hc2],
      exbind_ok]
    rw [show pyGet (assemble D)
        (((4 + D.symmLines.length + D.kvecLines.length : Nat) : Int) + 1) =
        .ok bb.indexLine from by
      rw [show ((4 + D.symmLines.length + D.kvecLines.length : Nat) : Int) + 1 =
        ((4 + D.symmLines.length + D.kvecLines.length + 1 : Nat) : Int) from by
          push_cast; ring]
      exact pyGet_nat _ _ _ hgeti, exbind_ok]
    rw [mapEx_ok_of_all pyIntTok _ _ (fun t ht => pyIntTok_ok t (hc3 t ht)),
      exbind_ok]
    rw [hc6, exbind_ok]
    rw [show pyGet [((4 + D.symmLines.length + D.kvecLines.length : Nat) : Int)]
        (((0 + 1 : Nat)) : Int) = .error .indexError from
        pyGet_err _ (0 + 1) (by simp), exbind_err, exbind_err]

/-! ## C2: shape of a successful parse -/

/-- Keys of the expected count dictionary. -/
theorem blkCounts_keys (bs : List V2TBlock) :
    ∀ i : Nat, (blkCounts bs i).map Prod.fst = List.range' i bs.length := by
  induction bs with
  | nil => intro i; rfl
  | cons b bs ih =>
    intro i
    simp only [blkCounts, List.map_cons, List.length_cons, List.range'_succ, ih]

/-- Keys of the expected index-list dictionary. -/
theorem blkSoilcg_keys (bs : List V2TBlock) :
    ∀ i : Nat, (blkSoilcg bs i).map Prod.fst = List.range' i bs.length := by
  induction bs with
  | nil => intro i; rfl
  | cons b bs ih =>
    intro i
    simp only [blkSoilcg, List.map_cons, List.length_cons, List.range'_succ, ih]

/-- Keys of the expected trace dictionary. -/
theorem blkTraces_keys (bs : List V2TBlock) :
    ∀ i : Nat, (blkTraces bs i).map Prod.fst = List.range' i bs.length := by
  induction bs with
  | nil => intro i; rfl
  | cons b bs ih =>
    intro i
    simp only [blkTraces, List.map_cons, List.length_cons, List.range'_succ, ih]

/-- Claim C2 (amended).  For a well-formed trace file with at least two
symmetry operations and at least two maximal k-vectors, parsing succeeds
and returns exactly the declared number of symmetry-operation rows, exactly
the declared number of k-vectors, and three dictionaries keyed exactly by
`0, …, K-1` in order — also when the last block's trace table runs to end
of file with no boundary line after it (the assembled file has nothing
after the last block).  The restrictions are forced by numpy's squeezing:
with one k-vector the parse raises `IndexError`
(see the counterexample), and with zero or one symmetry rows the stored
array is not a row matrix. -/
theorem c2_wellformed_parse (D : V2TFile) (hwf : wfFile D = true)
    (hS : 2 ≤ D.symmLines.length) (hK : 2 ≤ D.blocks.length) :
    ∃ out, parse_stdout (assemble D) = .ok out ∧
      out.num_occ_bands = (pyIntCore D.bandLine).getD 0 ∧
      out.num_symm_ops = (D.symmLines.length : Int) ∧
      out.symm_ops = .mat (D.symmLines.map cleanRowVal) ∧
      (D.symmLines.map cleanRowVal).length = D.symmLines.length ∧
      out.num_max_kvec = (D.blocks.length : Int) ∧
      out.kvecs = .mat (D.kvecLines.map cleanRowVal) ∧
      (D.kvecLines.map cleanRowVal).length = D.blocks.length ∧
      out.num_kvec_symm_ops.map Prod.fst = List.range D.blocks.length ∧
      out.symm_ops_in_little_cogroup.map Prod.fst = List.range D.blocks.length ∧
      out.traces.map Prod.fst = List.range D.blocks.length := by
  obtain ⟨-, -, -, -, -, -, hbk, -⟩ := wfFile_spec D hwf
  refine ⟨_, parse_assemble_ok D hwf (by omega), rfl, rfl, ?_, by simp, ?_, ?_,
    ?_, ?_, ?_, ?_⟩
  · exact npLoadVal_mat D.symmLines hS
  · rw [← hbk]
  · exact npLoadVal_mat D.kvecLines (by omega)
  · simp [← hbk]
  · rw [blkCounts_keys, List.range_eq_range']
  · rw [blkSoilcg_keys, List.range_eq_range']
  · rw [blkTraces_keys, List.range_eq_range']

/-- Claim C2 is false as stated: `file1` is a well-formed trace file whose
header declares one maximal k-vector, and parsing it raises `IndexError`
instead of returning a record. -/
theorem c2_counterexample :
    wfFile file1 = true ∧ file1.blocks.length = 1 ∧
    parse_stdout (assemble file1) = .error .indexError := by
  refine ⟨by decide, by decide, by decide⟩

/-- Witness for the amended C2 on the concrete two-k-vector file. -/
theorem c2_witness :
    wfFile file2 = true ∧ 2 ≤ file2.symmLines.length ∧ 2 ≤ file2.blocks.length ∧
    (∃ out, parse_stdout (assemble file2) = .ok out ∧
      out.num_occ_bands = (pyIntCore file2.bandLine).getD 0 ∧
      out.num_symm_ops = (file2.symmLines.length : Int) ∧
      out.symm_ops = .mat (file2.symmLines.map cleanRowVal) ∧
      (file2.symmLines.map cleanRowVal).length = file2.symmLines.length ∧
      out.num_max_kvec = (file2.blocks.length : Int) ∧
      out.kvecs = .mat (file2.kvecLines.map cleanRowVal) ∧
      (file2.kvecLines.map cleanRowVal).length = file2.blocks.length ∧
      out.num_kvec_symm_ops.map Prod.fst = List.range file2.blocks.length ∧
      out.symm_ops_in_little_cogroup.map Prod.fst =
        List.range file2.blocks.length ∧
      out.traces.map Prod.fst = List.range file2.blocks.length) :=
  ⟨by decide, by decide, by decide,
    c2_wellformed_parse file2 (by decide) (by decide) (by decide)⟩

/-! ## C6: little-cogroup counts -/

/-- Inverting a successful bind in the exception monad. -/
theorem exbind_ok_inv {α β : Type} {e : Except PyErr α} {f : α → Except PyErr β}
    {b : β} (h : (e >>= f) = .ok b) : ∃ a, e = .ok a ∧ f a = .ok b := by
  cases e with
  | error err => rw [exbind_err] at h; exact absurd h (by simp)
  | ok a => exact ⟨a, rfl, h⟩

/-- Looking up any in-range key in the expected dictionaries: the stored
index list has exactly the declared length. -/
theorem blk_dictFind : ∀ (bs : List V2TBlock) (i0 i : Nat), i0 ≤ i →
    i < i0 + bs.length →
    ∃ n l, dictFind (blkCounts bs i0) i = some n ∧
      dictFind (blkSoilcg bs i0) i = some l ∧ (l.length : Int) = n := by
  intro bs
  induction bs with
  | nil =>
    intro i0 i h1 h2
    exact absurd h2 (by simp; omega)
  | cons b bs ih =>
    intro i0 i h1 h2
    by_cases hi : i = i0
    · subst hi
      refine ⟨countOf b, soilcgVals b, ?_, ?_, by simp [soilcgVals, countOf]⟩
      · simp [dictFind, blkCounts, List.find?]
      · simp [dictFind, blkSoilcg, List.find?]
    · obtain ⟨n, l, ha, hb, hc⟩ := ih (i0 + 1) i (by omega)
        (by simp only [List.length_cons] at h2; omega)
      refine ⟨n, l, ?_, ?_, hc⟩
      · simp only [dictFind, blkCounts] at ha ⊢
        rw [List.find?_cons_of_neg _ (by simp; omega)]
        exact ha
      · simp only [dictFind, blkSoilcg] at hb ⊢
        rw [List.find?_cons_of_neg _ (by simp; omega)]
        exact hb

/-- Claim C6.  For every well-formed trace file whose parse succeeds and
every k-vector index below the declared maximal-k-vector count, the parsed
record stores a little-cogroup count and an operation-index list for that
index, and the list's length equals the stored count. -/
theorem c6_little_cogroup_counts (D : V2TFile) (out : V2TParsed)
    (hwf : wfFile D = true) (hp : parse_stdout (assemble D) = .ok out) :
    ∀ i : Nat, (i : Int) < out.num_max_kvec →
      ∃ n l, dictFind out.num_kvec_symm_ops i = some n ∧
        dictFind out.symm_ops_in_little_cogroup i = some l ∧
        (l.length : Int) = n := by
  by_cases hk1 : D.blocks.length = 1
  · rw [parse_assemble_K1 D hwf hk1] at hp
    exact absurd hp (by simp)
  · rw [parse_assemble_ok D hwf hk1] at hp
    injection hp with hp
    subst hp
    intro i hi
    obtain ⟨-, -, -, -, -, -, hbk, -⟩ := wfFile_spec D hwf
    simp only at hi
    have hib : i < D.blocks.length := by
      rw [hbk]
      omega
    exact blk_dictFind D.blocks 0 i (by omega) (by omega)

/-- Witness for C6 on the concrete two-k-vector file at index 0. -/
theorem c6_witness :
    wfFile file2 = true ∧
    parse_stdout (assemble file2) = .ok parsed2 ∧
    ((0 : Int) < parsed2.num_max_kvec) ∧
    (∃ n l, dictFind parsed2.num_kvec_symm_ops 0 = some n ∧
      dictFind parsed2.symm_ops_in_little_cogroup 0 = some l ∧
      (l.length : Int) = n) :=
  ⟨by decide, by decide, by decide,
    c6_little_cogroup_counts file2 parsed2 (by decide) (by decide) 0 (by decide)⟩

/-! ## C9: no partial result on success -/

/-- A successful run of the k-vector loop appends exactly one entry per
iterator element to each dictionary, with consecutive keys. -/
theorem parseLoop_keys :
    ∀ (kl : List NpArray) (lines : List String) (ps : List Int) (K : Int)
      (idx : Nat) (d1 : List (Nat × Int)) (d2 : List (Nat × List Int))
      (d3 : List (Nat × NpArray)) (r1 : List (Nat × Int))
      (r2 : List (Nat × List Int)) (r3 : List (Nat × NpArray)),
      parseLoop lines ps K kl idx d1 d2 d3 = .ok (r1, r2, r3) →
      r1.map Prod.fst = d1.map Prod.fst ++ List.range' idx kl.length ∧
      r2.map Prod.fst = d2.map Prod.fst ++ List.range' idx kl.length ∧
      r3.map Prod.fst = d3.map Prod.fst ++ List.range' idx kl.length := by
  intro kl
  induction kl with
  | nil =>
    intro lines ps K idx d1 d2 d3 r1 r2 r3 h
    simp only [parseLoop, Except.ok.injEq, Prod.mk.injEq] at h
    obtain ⟨ha, hb, hc⟩ := h
    subst ha
    subst hb
    subst hc
    simp
  | cons a kl ih =>
    intro lines ps K idx d1 d2 d3 r1 r2 r3 h
    simp only [parseLoop] at h
    obtain ⟨sb, -, h⟩ := exbind_ok_inv h
    split at h
    · obtain ⟨nb, -, h⟩ := exbind_ok_inv h
      obtain ⟨ts, -, h⟩ := exbind_ok_inv h
      obtain ⟨cl, -, h⟩ := exbind_ok_inv h
      obtain ⟨n, -, h⟩ := exbind_ok_inv h
      obtain ⟨il, -, h⟩ := exbind_ok_inv h
      obtain ⟨sg, -, h⟩ := exbind_ok_inv h
      obtain ⟨tr, -, h⟩ := exbind_ok_inv h
      obtain ⟨ha, hb, hc⟩ := ih lines ps K (idx + 1) _ _ _ r1 r2 r3 h
      refine ⟨?_, ?_, ?_⟩
      · rw [ha]
        simp [List.range'_succ]
      · rw [hb]
        simp [List.range'_succ]
      · rw [hc]
        simp [List.range'_succ]
    · obtain ⟨ts, -, h⟩ := exbind_ok_inv h
      obtain ⟨cl, -, h⟩ := exbind_ok_inv h
      obtain ⟨n, -, h⟩ := exbind_ok_inv h
      obtain ⟨il, -, h⟩ := exbind_ok_inv h
      obtain ⟨sg, -, h⟩ := exbind_ok_inv h
      obtain ⟨tr, -, h⟩ := exbind_ok_inv h
      obtain ⟨ha, hb, hc⟩ := ih lines ps K (idx + 1) _ _ _ r1 r2 r3 h
      refine ⟨?_, ?_, ?_⟩
      · rw [ha]
        simp [List.range'_succ]
      · rw [hb]
        simp [List.range'_succ]
      · rw [hc]
        simp [List.range'_succ]

/-- Claim C9 (amended).  Whenever parsing succeeds, the returned record is
fully populated: the three dictionaries carry exactly the keys
`0, …, n-1` where `n` is the number of elements iteration over the parsed
k-vector array yields.  (Raising on every malformed file is *not*
guaranteed — see the counterexample, where a wrong header count parses
without error.) -/
theorem c9_no_partial_result (lines : List String) (out : V2TParsed)
    (h : parse_stdout lines = .ok out) :
    ∃ kl, npEnum out.kvecs = .ok kl ∧
      out.num_kvec_symm_ops.map Prod.fst = List.range kl.length ∧
      out.symm_ops_in_little_cogroup.map Prod.fst = List.range kl.length ∧
      out.traces.map Prod.fst = List.range kl.length := by
  unfold parse_stdout at h
  obtain ⟨l0, -, h⟩ := exbind_ok_inv h
  obtain ⟨B, -, h⟩ := exbind_ok_inv h
  obtain ⟨l1, -, h⟩ := exbind_ok_inv h
  obtain ⟨soc0, -, h⟩ := exbind_ok_inv h
  obtain ⟨l2, -, h⟩ := exbind_ok_inv h
  obtain ⟨S0, -, h⟩ := exbind_ok_inv h
  obtain ⟨sym, -, h⟩ := exbind_ok_inv h
  obtain ⟨l3, -, h⟩ := exbind_ok_inv h
  obtain ⟨K0, -, h⟩ := exbind_ok_inv h
  obtain ⟨kv, -, h⟩ := exbind_ok_inv h
  simp only [parseAfterHeader] at h
  obtain ⟨kl, hkl, h⟩ := exbind_ok_inv h
  obtain ⟨⟨d1, d2, d3⟩, hloop, h⟩ := exbind_ok_inv h
  injection h with h
  subst h
  obtain ⟨ha, hb, hc⟩ := parseLoop_keys kl lines _ K0 0 [] [] [] d1 d2 d3 hloop
  exact ⟨kl, hkl, by simpa [List.range_eq_range'] using ha,
    by simpa [List.range_eq_range'] using hb,
    by simpa [List.range_eq_range'] using hc⟩

/-- Claim C9 is false as stated: `lines9` is malformed — its header
declares 0 maximal k-vectors while a k-vector block (starting with the
single-fragment line `2` at index 6) follows — yet parsing succeeds and
returns a record with empty dictionaries instead of raising. -/
theorem c9_counterexample :
    parse_stdout lines9 = .ok out9 ∧
    out9.num_max_kvec = 0 ∧ out9.traces = [] ∧
    lines9.get? 6 = some "2\n" ∧ (fragsOf "2\n").length = 1 := by
  refine ⟨by decide, by decide, by decide, by decide, by decide⟩

/-- Witness for the amended C9 on the concrete two-k-vector file. -/
theorem c9_witness :
    parse_stdout (assemble file2) = .ok parsed2 ∧
    (∃ kl, npEnum parsed2.kvecs = .ok kl ∧
      parsed2.num_kvec_symm_ops.map Prod.fst = List.range kl.length ∧
      parsed2.symm_ops_in_little_cogroup.map Prod.fst = List.range kl.length ∧
      parsed2.traces.map Prod.fst = List.range kl.length) :=
  ⟨by decide, c9_no_partial_result (assemble file2) parsed2 (by decide)⟩

/-! ## C5: serialization round-trips -/

/-- Claim C5 (amended, trace-record half).  Serializing a successfully
parsed `Vasp2TraceOutput` and deserializing it over the unchanged file
system re-runs the constructor on the stored stdout path and reproduces the
record, field for field. -/
theorem c5_trace_roundtrip (fs : String → Option (List String)) (p : String)
    (o : Vasp2TraceOutput) (h : vasp2trace_output_init fs p = .ok o) :
    v2t_from_dict fs (v2t_as_dict o) = .ok o := by
  have hp : o.vasp2trace_stdout = p := by
    unfold vasp2trace_output_init at h
    cases hf : fs p with
    | none => rw [hf] at h; exact absurd h (by simp)
    | some lines =>
      rw [hf] at h
      obtain ⟨u, -, h⟩ := exbind_ok_inv h
      injection h with h
      rw [← h]
  unfold v2t_from_dict
  rw [show mdictGet (v2t_as_dict o) "vasp2trace_stdout" =
      .ok (.mstr o.vasp2trace_stdout) from rfl]
  rw [hp]
  exact h

/-- Claim C5 is false as stated for the invariant record: serializing a
constructed `BandTopologyAnalyzerOutput` and deserializing it re-runs the
constructor, whose argument slip routes the *fresh* output object
(`zobj 3`) into the extraction functions, so the restored `chern_number`
and `z2_invariant` differ from the original's. -/
theorem c5_counterexample :
    bta_output_init ext0 (.zobj 0) (.zobj 1) (.zobj 2) =
      .ok { result := .zobj 1, surface := .zobj 3001,
            chern_number := .zobj 1000, z2_invariant := .zobj 2000 } ∧
    bta_from_dict ext0 (.zobj 3)
        (bta_as_dict { result := .zobj 1, surface := .zobj 3001,
                       chern_number := .zobj 1000, z2_invariant := .zobj 2000 }) =
      .ok { result := .zobj 1, surface := .zobj 3001,
            chern_number := .zobj 1003, z2_invariant := .zobj 2003 } ∧
    ({ result := .zobj 1, surface := .zobj 3001, chern_number := .zobj 1003,
       z2_invariant := .zobj 2003 } : BandTopologyAnalyzerOutput) ≠
      { result := .zobj 1, surface := .zobj 3001, chern_number := .zobj 1000,
        z2_invariant := .zobj 2000 } := by
  refine ⟨rfl, rfl, by decide⟩

/-- Witness for the trace-record round-trip on the concrete file system. -/
theorem c5_witness :
    vasp2trace_output_init fs2 "trace.txt" = .ok obj2 ∧
    v2t_from_dict fs2 (v2t_as_dict obj2) = .ok obj2 :=
  ⟨by decide, c5_trace_roundtrip fs2 "trace.txt" obj2 (by decide)⟩
